import Mathlib

/-!
Verification of raybridge's key-discovery and decryption engine
(src/auth.ts and src/auth-normalize.ts) against its natural-language
specification.

The TypeScript source is shallowly embedded: pure repository logic is
translated into executable Lean definitions; external effects (Node's
crypto primitives, the filesystem, the credential store, the spawned
sqlcipher subprocess, JSON.parse, Buffer text codecs, SHA-256) are
abstracted as explicit oracle parameters, so each repository function
becomes a total function of its inputs and those oracles.
Bytes are modelled as lists of naturals (each < 256 in intended use);
Buffer.subarray becomes take/drop on lists.
-/

namespace RayBridge

/-- A byte string (Node `Buffer`), one natural per byte. -/
abbrev Bytes := List Nat

/-- Mirrors `RAYCAST_SALT` in src/auth.ts. -/
def RAYCAST_SALT : String := "yvkwWXzxPPBAqY2tmaKrB*DvYjjMaeEf"

/-- Mirrors `SQLITE_HEADER = Buffer.from("SQLite format 3\0", "utf8")`. -/
def SQLITE_HEADER : Bytes := ("SQLite format 3".data.map Char.toNat) ++ [0]

/-- Mirrors `AES_BLOCK = 16`. -/
def AES_BLOCK : Nat := 16

/-- Mirrors `GCM_TAG = 16`. -/
def GCM_TAG : Nat := 16

/-- Mirrors the `KeyCandidate` interface of src/auth.ts
(`keyPragma` is the string "key" or "hexkey"). -/
structure KeyCandidate where
  keyPragma : String
  keyExpr : String
  label : String
deriving DecidableEq, Repr

/-- Mirrors the `InitCandidate` interface of src/auth.ts. -/
structure InitCandidate where
  initSql : String
  label : String
deriving DecidableEq, Repr

/-- Mirrors the `SqlcipherOpenConfig` interface of src/auth.ts. -/
structure SqlcipherOpenConfig where
  initSql : String
  keyPragma : String
  keyExpr : String
  transparentDecryptKey : Option Bytes := none
deriving DecidableEq, Repr

/-- ASCII lower-casing of one character (the source only lower-cases
hex/label strings, so ASCII suffices for `String.prototype.toLowerCase`). -/
def lowerChar (c : Char) : Char :=
  if 'A' ≤ c && c ≤ 'Z' then Char.ofNat (c.toNat + 32) else c

/-- `s.toLowerCase()` on the ASCII strings the source applies it to. -/
def strToLower (s : String) : String := String.mk (s.data.map lowerChar)

/-- One hex digit (lowercase), for `Buffer.prototype.toString("hex")`. -/
def hexDigit (n : Nat) : Char :=
  if n < 10 then Char.ofNat (48 + n) else Char.ofNat (87 + n)

/-- Hex encoding of one byte. -/
def byteToHex (b : Nat) : List Char := [hexDigit ((b % 256) / 16), hexDigit (b % 256 % 16)]

/-- `buf.toString("hex")`: lowercase hex of a byte string. -/
def bytesToHex (bs : Bytes) : String := String.mk ((bs.map byteToHex).flatten)

/-- Escaping step of `sqlStringLiteral`: double every single quote. -/
def sqlEscape : List Char → List Char
  | [] => []
  | c :: cs => if c = '\'' then '\'' :: '\'' :: sqlEscape cs else c :: sqlEscape cs

/-- Mirrors `sqlStringLiteral` in src/auth.ts:
wrap in single quotes, doubling embedded quotes. -/
def sqlStringLiteral (s : String) : String :=
  "'" ++ String.mk (sqlEscape s.data) ++ "'"

/-- JS-style whitespace for `\s` / `trim` (ASCII fragment, which is all
that occurs in the strings the source matches). -/
def isJsWhitespace (c : Char) : Bool :=
  c = ' ' || c = '\t' || c = '\n' || c = '\r' || c = Char.ofNat 11 || c = Char.ofNat 12

/-- `String.prototype.trim()` (ASCII whitespace fragment). -/
def jsTrim (s : String) : String :=
  String.mk (((s.data.dropWhile isJsWhitespace).reverse.dropWhile isJsWhitespace).reverse)

/-- Mirrors `trimNulls`: strip trailing NULs, then trim. -/
def trimNulls (s : String) : String :=
  jsTrim (String.mk ((s.data.reverse.dropWhile (· = Char.ofNat 0)).reverse))

/-- Mirrors `isPrintableAscii`: the regex `^[\x20-\x7E]+$`. -/
def isPrintableAscii (s : String) : Bool :=
  !s.data.isEmpty && s.data.all (fun c => 32 ≤ c.toNat && c.toNat ≤ 126)

/-- Substring test, modelling `String.prototype.includes`. -/
def strContains (hay pat : String) : Bool :=
  go hay.data
where
  go : List Char → Bool
    | [] => List.isPrefixOf pat.data []
    | c :: cs => List.isPrefixOf pat.data (c :: cs) || go cs

/-- `label.startsWith(p)`. -/
def strStartsWith (s p : String) : Bool := List.isPrefixOf p.data s.data

/-!
## External crypto, abstracted

`createDecipheriv` comes from node:crypto. Each primitive is an oracle:
it receives exactly the arguments the source passes (key, IV/nonce,
auth tag where applicable, ciphertext) and returns the plaintext, or
none when decryption throws (bad padding / failed authentication).
-/

/-- The node:crypto decryption primitives used by src/auth.ts. -/
structure CryptoOracle where
  /-- AES-256-CBC: key, IV, ciphertext. -/
  aescbcDecrypt : Bytes → Bytes → Bytes → Option Bytes
  /-- AES-256-GCM: key, nonce, auth tag, ciphertext. -/
  aesgcmDecrypt : Bytes → Bytes → Bytes → Bytes → Option Bytes
  /-- ChaCha20-Poly1305: key, nonce, auth tag, ciphertext. -/
  chachaDecrypt : Bytes → Bytes → Bytes → Bytes → Option Bytes

/-- `Buffer.alloc(n, 0)`. -/
def zeroBytes (n : Nat) : Bytes := List.replicate n 0

/-- The `check` closure of `decryptFileAes256Cbc` (and the prefix
comparison of the GCM/ChaCha paths): the decrypted prefix equals the
16-byte SQLite file-format signature. -/
def hasSqliteHeader (plain : Bytes) : Bool :=
  decide (plain.take SQLITE_HEADER.length = SQLITE_HEADER)

/-- Layout A of `decryptFileAes256Cbc`: whole file is ciphertext,
IV is all-zero; accepted only when the plaintext carries the SQLite
signature. -/
def cbcZeroIvAttempt (O : CryptoOracle) (ciphertext key32 : Bytes) : Option Bytes :=
  if key32.length < 32 then none
  else if ciphertext.length % AES_BLOCK = 0 then
    match O.aescbcDecrypt (key32.take 32) (zeroBytes AES_BLOCK) ciphertext with
    | some plain => if hasSqliteHeader plain then some plain else none
    | none => none
  else none

/-- Layout B of `decryptFileAes256Cbc`: first 16 bytes are the IV, the
remainder is ciphertext. -/
def cbcFileIvAttempt (O : CryptoOracle) (ciphertext key32 : Bytes) : Option Bytes :=
  if key32.length < 32 then none
  else if AES_BLOCK < ciphertext.length then
    let iv := ciphertext.take AES_BLOCK
    let ct := ciphertext.drop AES_BLOCK
    if ct.length % AES_BLOCK = 0 then
      match O.aescbcDecrypt (key32.take 32) iv ct with
      | some plain => if hasSqliteHeader plain then some plain else none
      | none => none
    else none
  else none

/-- Mirrors `decryptFileAes256Cbc`: try layout A (zero IV), then
layout B (leading IV); return the first signature-bearing plaintext. -/
def decryptFileAes256Cbc (O : CryptoOracle) (ciphertext key32 : Bytes) : Option Bytes :=
  if key32.length < 32 then none
  else
    match cbcZeroIvAttempt O ciphertext key32 with
    | some p => some p
    | none => cbcFileIvAttempt O ciphertext key32

/-- Mirrors `decryptFileAes256Gcm`: leading nonce of `nonceLen` bytes,
trailing 16-byte tag, ciphertext in between. -/
def decryptFileAes256Gcm (O : CryptoOracle) (ciphertext key32 : Bytes) (nonceLen : Nat) :
    Option Bytes :=
  if key32.length < 32 then none
  else if ciphertext.length < nonceLen + GCM_TAG + 16 then none
  else
    let nonce := ciphertext.take nonceLen
    let tag := ciphertext.drop (ciphertext.length - GCM_TAG)
    let ct := (ciphertext.drop nonceLen).take (ciphertext.length - GCM_TAG - nonceLen)
    match O.aesgcmDecrypt (key32.take 32) nonce tag ct with
    | some plain => if hasSqliteHeader plain then some plain else none
    | none => none

/-- Mirrors `decryptFileChaCha20Poly1305`: same layout as the GCM path,
with the ChaCha20-Poly1305 primitive. -/
def decryptFileChaCha20Poly1305 (O : CryptoOracle) (ciphertext key32 : Bytes) (nonceLen : Nat) :
    Option Bytes :=
  if key32.length < 32 then none
  else if ciphertext.length < nonceLen + GCM_TAG + 16 then none
  else
    let nonce := ciphertext.take nonceLen
    let tag := ciphertext.drop (ciphertext.length - GCM_TAG)
    let ct := (ciphertext.drop nonceLen).take (ciphertext.length - GCM_TAG - nonceLen)
    match O.chachaDecrypt (key32.take 32) nonce tag ct with
    | some plain => if hasSqliteHeader plain then some plain else none
    | none => none

/-- The per-key decryption chain of `tryTransparentDecryptOpen`
(src/auth.ts lines 1177-1181):
`decryptFileAes256Cbc(...) ?? decryptFileAes256Gcm(...,12) ??
 decryptFileAes256Gcm(...,16) ?? decryptFileChaCha20Poly1305(...,12)`. -/
def transparentDecryptChain (O : CryptoOracle) (ciphertext key : Bytes) : Option Bytes :=
  match decryptFileAes256Cbc O ciphertext key with
  | some p => some p
  | none =>
    match decryptFileAes256Gcm O ciphertext key 12 with
    | some p => some p
    | none =>
      match decryptFileAes256Gcm O ciphertext key 16 with
      | some p => some p
      | none => decryptFileChaCha20Poly1305 O ciphertext key 12

/-- First `some` in a list of options (the `??`-chain shape). -/
def firstSome : List (Option α) → Option α
  | [] => none
  | none :: rest => firstSome rest
  | some a :: _ => some a

/-!
## Transparent File-Level Decryptor (`tryTransparentDecryptOpen`)

The structural query (`spawnSync` of the sqlcipher shell on the
materialized plaintext with input
`.mode json\nSELECT count(*) AS c FROM sqlite_master;`) is abstracted
as an oracle from the plaintext to the subprocess outcome.
-/

/-- Outcome of the structural-query subprocess: exit status
(`none` = crashed/signalled, mirroring a non-numeric `proc.status`)
and its standard output. -/
structure QueryResult where
  status : Option Int
  stdout : String

/-- Helper for the `\[\s*\{` regex: after a `[`, skip whitespace and
require `{`. -/
def wsThenBrace : List Char → Bool
  | [] => false
  | c :: cs => if c = '{' then true else if isJsWhitespace c then wsThenBrace cs else false

/-- The regex test `/\[\s*\{/.test(stdout)` of `tryTransparentDecryptOpen`:
somewhere in the string, a `[` followed by whitespace then `{`. -/
def hasJsonObjectStart : List Char → Bool
  | [] => false
  | c :: cs => (c = '[' && wsThenBrace cs) || hasJsonObjectStart cs

/-- The acceptance test of `tryTransparentDecryptOpen`:
`proc.status === 0 && proc.stdout && /\[\s*\{/.test(proc.stdout)`. -/
def acceptStructuralQuery (r : QueryResult) : Bool :=
  r.status = some 0 && hasJsonObjectStart r.stdout.data

/-- Mirrors `WINDOWS_CREDENTIAL_TARGETS` in src/auth.ts. -/
def WINDOWS_CREDENTIAL_TARGETS : List String :=
  [ "Raycast-Production/BackendDBKey",
    "LegacyGeneric:target=Raycast-Production/BackendDBKey",
    "Raycast-Canary/BackendDBKey",
    "LegacyGeneric:target=Raycast-Canary/BackendDBKey",
    "canaryWindowsEncKey",
    "LegacyGeneric:target=canaryWindowsEncKey",
    "canaryWindowsKey",
    "LegacyGeneric:target=canaryWindowsKey",
    "canaryWindowsHmakKey",
    "LegacyGeneric:target=canaryWindowsHmakKey" ]

/-- The `keysToTry` list built by `tryTransparentDecryptOpen`
(src/auth.ts lines 1153-1169): first 32 (and, when at least 64 bytes,
bytes 32..64) of the `last_key` file, then the first 32 bytes of every
readable credential blob. -/
def transparentKeysToTry (lastKey : Option Bytes) (credBlob : String → Option Bytes) :
    List Bytes :=
  (match lastKey with
   | some bs =>
     if 32 ≤ bs.length then
       bs.take 32 :: (if 64 ≤ bs.length then [(bs.drop 32).take 32] else [])
     else []
   | none => []) ++
  WINDOWS_CREDENTIAL_TARGETS.filterMap (fun t =>
    match credBlob t with
    | some b => if 32 ≤ b.length then some (b.take 32) else none
    | none => none)

/-- The accepted configuration built by `tryTransparentDecryptOpen` on
success: empty init SQL, empty key expression, the raw key carried in
`transparentDecryptKey`. -/
def transparentConfig (key : Bytes) : SqlcipherOpenConfig :=
  { initSql := "", keyPragma := "key", keyExpr := "''", transparentDecryptKey := some key }

/-- The key loop of `tryTransparentDecryptOpen` (lines 1171-1216):
for each candidate key, run the decryption chain; skip the key unless
the plaintext prefix is the SQLite signature; then accept only when the
structural query on the materialized plaintext succeeds, otherwise move
on to the next key. -/
def tryTransparentLoop (O : CryptoOracle) (query : Bytes → QueryResult) (ciphertext : Bytes) :
    List Bytes → Option SqlcipherOpenConfig
  | [] => none
  | key :: rest =>
    match transparentDecryptChain O ciphertext key with
    | none => tryTransparentLoop O query ciphertext rest
    | some plain =>
      if decide (plain.take 16 = SQLITE_HEADER) then
        if acceptStructuralQuery (query plain) then some (transparentConfig key)
        else tryTransparentLoop O query ciphertext rest
      else tryTransparentLoop O query ciphertext rest

/-- Environment of `tryTransparentDecryptOpen`: platform, the selected
database file (after the `main.db`-preferring selection), the bytes
read from it (`none` when `readFileSync` throws), the `last_key` file,
the credential store, and the structural-query subprocess. -/
structure TransparentEnv where
  platformWin : Bool
  dbFile : Option String
  ciphertext : Option Bytes
  lastKey : Option Bytes
  credBlob : String → Option Bytes
  runStructuralQuery : Bytes → QueryResult

/-- Mirrors `tryTransparentDecryptOpen` (src/auth.ts lines 1137-1218). -/
def tryTransparentDecryptOpen (O : CryptoOracle) (E : TransparentEnv) :
    Option SqlcipherOpenConfig :=
  if !E.platformWin then none
  else
    match E.dbFile with
    | none => none
    | some _ =>
      match E.ciphertext with
      | none => none
      | some ct =>
        if ct.length < 16 then none
        else tryTransparentLoop O E.runStructuralQuery ct
          (transparentKeysToTry E.lastKey E.credBlob)

/-!
## Query Executor (`runSqlcipherQuery`) retry loop

One attempt of the non-transparent path is abstracted as an oracle from
the 1-based attempt number to its outcome (parsed rows, or the combined
error message built from `err.message`/`stderr`/`stdout`).
-/

/-- Outcome of one sqlcipher query attempt. -/
inductive QueryOutcome where
  | success (rows : String)
  | failure (message : String)

/-- The transient whitelist of `runSqlcipherQuery` (lines 1346-1349):
the combined failure message contains one of the three known transient
conditions. -/
def isTransientMsg (m : String) : Bool :=
  strContains m "database is locked" ||
  strContains m "database disk image is malformed" ||
  strContains m "no such table"

/-- Result of the retry loop: the propagated success/error, the 1-based
attempt numbers actually run, and the backoff sleeps performed (ms). -/
structure QueryRun where
  result : Except String String
  attemptNumbers : List Nat
  delaysMs : List Nat
deriving Repr

/-- The `for (let attempt = 1; attempt <= retries; attempt++)` loop of
`runSqlcipherQuery`: success returns; a transient failure before the
last attempt sleeps `50 * attempt` ms and retries; any other failure
propagates. The fuel mirrors the loop bound (the `return []` after the
loop is the fuel-0 fallback, unreachable for positive fuel). -/
def runQueryGo (outcome : Nat → QueryOutcome) (retries : Nat) : Nat → Nat → QueryRun
  | _, 0 => ⟨.ok "", [], []⟩
  | attempt, fuel + 1 =>
    match outcome attempt with
    | .success r => ⟨.ok r, [attempt], []⟩
    | .failure m =>
      if isTransientMsg m && attempt < retries then
        let rest := runQueryGo outcome retries (attempt + 1) fuel
        ⟨rest.result, attempt :: rest.attemptNumbers, 50 * attempt :: rest.delaysMs⟩
      else ⟨.error m, [attempt], []⟩

/-- Mirrors the retry behaviour of `runSqlcipherQuery` (lines 1296-1362)
with its default `retries = 3`. -/
def runSqlcipherQuery (outcome : Nat → QueryOutcome) (retries : Nat := 3) : QueryRun :=
  runQueryGo outcome retries 1 retries

/-!
## Copy-then-run target selection (`runSqlcipherQuery` /
`runSqlcipherQueryAsync`)
-/

/-- Setup of one engine-subprocess invocation: the database path handed
to the subprocess and the stdin script. -/
structure AttemptSetup where
  targetDb : String
  input : String
deriving DecidableEq, Repr

/-- Mirrors the attempt preparation of `runSqlcipherQuery`
(lines 1296-1312) and `runSqlcipherQueryAsync` (lines 1458-1469):
`targetDb` starts as the private temp copy; when copying the DB (and
WAL/SHM companions) throws, the code falls back to the original path
(`targetDb = dbPath`); the subprocess then receives the init SQL, the
key pragma, `.mode json` and the query on stdin. -/
def prepareQueryAttempt (copyOk : Bool) (tmpDb dbPath : String)
    (cfg : SqlcipherOpenConfig) (sql : String) : AttemptSetup :=
  let targetDb := if copyOk then tmpDb else dbPath
  { targetDb := targetDb
    input := cfg.initSql ++ "PRAGMA " ++ cfg.keyPragma ++ " = " ++ cfg.keyExpr ++
      ";\n.mode json\n" ++ sql }

/-!
## Vault Opener (`getWorkingOpenConfig`)

The staged search is modelled with an explicit cache value (the global
`cachedOpenConfig`, passed in and returned) and an explicit trace of
probe attempts, so that cache short-circuiting and stage gating are
observable. A probe (`runSqlcipherQueryAsync` followed by the
non-empty-rows test at line 1611) is abstracted as a boolean oracle on
the (init, key) pair; within a stage the worker pool consumes the task
queue in generation order, which the model follows sequentially.
-/

/-- Which search stage issued a probe. -/
inductive StageTag where
  | stage1
  | stage2
  | stage3
  | stage4
deriving DecidableEq, Repr

/-- One probe attempt, tagged with its stage. -/
structure ProbeAttempt where
  stage : StageTag
  init : InitCandidate
  key : KeyCandidate
deriving DecidableEq, Repr

/-- The winning configuration built at line 1612 from a successful
probe. -/
def probeWinner (i : InitCandidate) (k : KeyCandidate) : SqlcipherOpenConfig :=
  { initSql := i.initSql, keyPragma := k.keyPragma, keyExpr := k.keyExpr }

/-- Run one stage's task queue: first successful probe wins and no
further task is started; every started attempt is recorded. -/
def runStageTasks (probe : InitCandidate → KeyCandidate → Bool) (tag : StageTag) :
    List (InitCandidate × KeyCandidate) →
    Option SqlcipherOpenConfig × List ProbeAttempt
  | [] => (none, [])
  | (i, k) :: rest =>
    if probe i k then (some (probeWinner i k), [⟨tag, i, k⟩])
    else
      let out := runStageTasks probe tag rest
      (out.1, ⟨tag, i, k⟩ :: out.2)

/-- The init × key cross product in generation order. -/
def crossTasks (inits : List InitCandidate) (keys : List KeyCandidate) :
    List (InitCandidate × KeyCandidate) :=
  inits.flatMap (fun i => keys.map (fun k => (i, k)))

/-- One call to the inner `probe` helper of `getWorkingOpenConfig`. -/
def probeStage (probe : InitCandidate → KeyCandidate → Bool) (tag : StageTag)
    (inits : List InitCandidate) (keys : List KeyCandidate) :
    Option SqlcipherOpenConfig × List ProbeAttempt :=
  runStageTasks probe tag (crossTasks inits keys)

/-- Environment of one `getWorkingOpenConfig` call: the cache on entry,
whether any candidate DB file exists, the Transparent Decryptor's
result, the candidate generators' outputs, the probe oracle, and the
`RAYBRIDGE_DB_PROBE_WIDE` / `RAYBRIDGE_DB_PROBE_FULL` opt-in flags with
the fast-stage limits (defaults 2 and 20 from
`RAYBRIDGE_DB_PROBE_FAST_INITS` / `RAYBRIDGE_DB_PROBE_FAST_KEYS`). -/
structure OpenerEnv where
  cached : Option SqlcipherOpenConfig
  dbsNonempty : Bool
  transparent : Option SqlcipherOpenConfig
  keyCandidates : List KeyCandidate
  initCandidates : List InitCandidate
  probe : InitCandidate → KeyCandidate → Bool
  wideFlag : Bool
  fullFlag : Bool
  initFastLimit : Nat := 2
  keyFastLimit : Nat := 20

/-- Observable outcome of one `getWorkingOpenConfig` call: the returned
configuration or thrown error, the cache after the call, whether the
Transparent Decryptor was invoked, and every probe attempt started. -/
structure OpenerOutcome where
  result : Except String SqlcipherOpenConfig
  cachedAfter : Option SqlcipherOpenConfig
  transparentTried : Bool
  attempts : List ProbeAttempt
deriving Repr

/-- The aggregated exhaustion error of line 1669 (the opt-in hint of
line 1666-1668 is appended when the full scan was not enabled). -/
def exhaustionError (fullFlag : Bool) : String :=
  "Could not open Raycast DB with any known key candidate" ++
    (if fullFlag then ""
     else " (set RAYBRIDGE_DB_PROBE_FULL=1 to run a full scan; it can take several minutes)")

/-- The `initFast` slice (line 1644): `slice(0, max(1, INIT_FAST_LIMIT))`. -/
def fastInits (E : OpenerEnv) : List InitCandidate :=
  E.initCandidates.take (max 1 E.initFastLimit)

/-- The `keysFast` slice (line 1645): `slice(0, max(1, KEY_FAST_LIMIT))`. -/
def fastKeys (E : OpenerEnv) : List KeyCandidate :=
  E.keyCandidates.take (max 1 E.keyFastLimit)

/-- Stage 1 (line 1648): fast inits × fast keys. -/
def stage1Run (E : OpenerEnv) : Option SqlcipherOpenConfig × List ProbeAttempt :=
  probeStage E.probe .stage1 (fastInits E) (fastKeys E)

/-- Stage 2 (line 1649): fast inits × all keys. -/
def stage2Run (E : OpenerEnv) : Option SqlcipherOpenConfig × List ProbeAttempt :=
  probeStage E.probe .stage2 (fastInits E) E.keyCandidates

/-- Stage 3 (line 1650): all inits × fast keys. -/
def stage3Run (E : OpenerEnv) : Option SqlcipherOpenConfig × List ProbeAttempt :=
  probeStage E.probe .stage3 E.initCandidates (fastKeys E)

/-- Stage 4 (line 1651): all inits × all keys. -/
def stage4Run (E : OpenerEnv) : Option SqlcipherOpenConfig × List ProbeAttempt :=
  probeStage E.probe .stage4 E.initCandidates E.keyCandidates

/-- Mirrors `getWorkingOpenConfig` (src/auth.ts lines 1524-1670):
return the cache when primed; fail when no DB file exists; try the
Transparent Decryptor and terminate on its success; fail when no key
candidate exists; otherwise run the widening stages
fast×fast, fast×all, (wide) all×fast, (full) all×all, where
`wideProbe = fullProbe || RAYBRIDGE_DB_PROBE_WIDE` (line 1640);
cache a winner; on exhaustion throw the single aggregated error. -/
def getWorkingOpenConfig (E : OpenerEnv) : OpenerOutcome :=
  match E.cached with
  | some c => ⟨.ok c, some c, false, []⟩
  | none =>
    if !E.dbsNonempty then
      ⟨.error "No Raycast database files found", none, false, []⟩
    else
      match E.transparent with
      | some t => ⟨.ok t, some t, true, []⟩
      | none =>
        if E.keyCandidates.isEmpty then
          ⟨.error "No Raycast DB key candidates found", none, true, []⟩
        else
          match (stage1Run E).1 with
          | some w => ⟨.ok w, some w, true, (stage1Run E).2⟩
          | none =>
            match (stage2Run E).1 with
            | some w => ⟨.ok w, some w, true, (stage1Run E).2 ++ (stage2Run E).2⟩
            | none =>
              let s3 := if E.fullFlag || E.wideFlag then stage3Run E else (none, [])
              match s3.1 with
              | some w => ⟨.ok w, some w, true, (stage1Run E).2 ++ (stage2Run E).2 ++ s3.2⟩
              | none =>
                let s4 := if E.fullFlag then stage4Run E else (none, [])
                match s4.1 with
                | some w =>
                  ⟨.ok w, some w, true,
                    (stage1Run E).2 ++ (stage2Run E).2 ++ s3.2 ++ s4.2⟩
                | none =>
                  ⟨.error (exhaustionError E.fullFlag), none, true,
                    (stage1Run E).2 ++ (stage2Run E).2 ++ s3.2 ++ s4.2⟩

/-!
## Key Candidate Generator

SHA-256 and the Buffer text codecs are node builtins and are abstracted
as oracles; everything else (slicing, labelling, hex handling,
derivation order, dedup, priority reordering) is embedded from the
source.
-/

/-- The byte content of `Buffer.from(RAYCAST_SALT, "utf8")`. -/
def saltBytes : Bytes := RAYCAST_SALT.data.map Char.toNat

/-- External codecs used by the generators: SHA-256 (string and
byte-part forms) and the Buffer text encodings. `tryB64Decode`
abstracts `tryDecodeBase64` (base64/base64url detection plus
`Buffer.from(..., "base64")`): `none` covers both a format rejection
and an empty decode. -/
structure WinCodecs where
  sha256Hex : String → String
  sha256HexBytes : List Bytes → String
  decodeUtf8 : Bytes → String
  decodeUtf16le : Bytes → String
  encodeBase64 : Bytes → String
  tryB64Decode : String → Option Bytes

/-- The `addKey` helper of `getWindowsKeyCandidates`: a quoted
passphrase for `PRAGMA key`. -/
def addKeyC (label passphrase : String) : KeyCandidate :=
  ⟨"key", sqlStringLiteral passphrase, label⟩

/-- The `addHexkey` helper: a quoted lowercase hex string for
`PRAGMA hexkey`. -/
def addHexkeyC (label hexv : String) : KeyCandidate :=
  ⟨"hexkey", sqlStringLiteral (strToLower hexv), label⟩

/-- The `addRawKeyHex` helper: the three raw-key spellings
(blob literal, string-wrapped blob literal, `raw:` prefix). -/
def addRawKeyHex (label hexv : String) : List KeyCandidate :=
  let h := strToLower hexv
  if h = "" then []
  else
    [ ⟨"key", "x'" ++ h ++ "'", label ++ ":key(raw-blob-literal)"⟩,
      ⟨"key", "\"x'" ++ h ++ "'\"", label ++ ":key(raw-string-x)"⟩,
      addKeyC (label ++ ":key(raw-colon)") ("raw:" ++ h) ]

/-- The `addFromHex` helper: passphrase and salted-hash forms, the
binary `hexkey` form, raw-key forms for 32/48-byte material, and the
64-byte `hexkey` plus raw forms for 64-byte material. -/
def addFromHex (C : WinCodecs) (label hexv : String) : List KeyCandidate :=
  let h := strToLower hexv
  if h = "" then []
  else
    [ addKeyC (label ++ ":key(passphrase-hex)") h,
      addKeyC (label ++ ":key(sha256(hex+salt))") (C.sha256Hex (h ++ RAYCAST_SALT)),
      addKeyC (label ++ ":key(sha256(salt+hex))") (C.sha256Hex (RAYCAST_SALT ++ h)),
      addKeyC (label ++ ":key(sha256(hex))") (C.sha256Hex h),
      addHexkeyC (label ++ ":hexkey(binary-passphrase)") h ] ++
    (if h.length = 64 || h.length = 96 then addRawKeyHex label h else []) ++
    (if h.length = 128 then
       addHexkeyC (label ++ ":hexkey(64-byte)") h :: addRawKeyHex (label ++ ":64-byte") h
     else [])

/-- The regex `^[0-9a-fA-F]$` on one character. -/
def isHexChar (c : Char) : Bool :=
  ('0' ≤ c && c ≤ '9') || ('a' ≤ c && c ≤ 'f') || ('A' ≤ c && c ≤ 'F')

/-- `/^[0-9a-fA-F]+$/.test(v) && v.length % 2 === 0`. -/
def isEvenHexString (s : String) : Bool :=
  !s.data.isEmpty && s.data.all isHexChar && s.length % 2 = 0

/-- The regex `^x'[0-9a-fA-F]+'$` of the env-override branch. -/
def isRawBlobLiteralString (s : String) : Bool :=
  match s.data with
  | 'x' :: '\'' :: rest =>
    match rest.reverse with
    | '\'' :: mid => !mid.isEmpty && mid.all isHexChar
    | _ => false
  | _ => false

/-- The regex `^"x'[0-9a-fA-F]+'"$` of the env-override branch. -/
def isQuotedRawBlobString (s : String) : Bool :=
  match s.data with
  | '"' :: rest =>
    match rest.reverse with
    | '"' :: mid => isRawBlobLiteralString (String.mk mid.reverse)
    | _ => false
  | _ => false

/-- The env-override branch of `getWindowsKeyCandidates`
(lines 327-345), applied to the trimmed override value. -/
def winEnvKeyCandidates (C : WinCodecs) (v : String) : List KeyCandidate :=
  if isRawBlobLiteralString v then
    [ ⟨"key", v, "env:RAYBRIDGE_RAYCAST_DB_KEY:raw-blob-literal"⟩,
      ⟨"key", "\"" ++ v ++ "\"", "env:RAYBRIDGE_RAYCAST_DB_KEY:raw-string-x"⟩ ]
  else if isQuotedRawBlobString v then
    [ ⟨"key", v, "env:RAYBRIDGE_RAYCAST_DB_KEY:raw-string-x"⟩ ]
  else if isEvenHexString v then
    addKeyC "env:RAYBRIDGE_RAYCAST_DB_KEY:hex(passphrase)" v ::
      addFromHex C "env:RAYBRIDGE_RAYCAST_DB_KEY:hex" v
  else
    [ addKeyC "env:RAYBRIDGE_RAYCAST_DB_KEY" v ]

/-- The `last_key` file branch of `getWindowsKeyCandidates`
(lines 347-409). -/
def lastKeyCandidates (C : WinCodecs) (bytes : Bytes) : List KeyCandidate :=
  let utf8 := trimNulls (C.decodeUtf8 bytes)
  (if utf8 ≠ "" && isPrintableAscii utf8 then
     (addKeyC "last_key:utf8" utf8 ::
       (let h := C.sha256Hex (utf8 ++ RAYCAST_SALT)
        addKeyC "last_key:utf8:sha256(+salt)" h ::
          addFromHex C "last_key:utf8:sha256(+salt)" h)) ++
     (if isEvenHexString utf8 then addFromHex C "last_key:utf8-hex" utf8 else [])
   else []) ++
  addFromHex C "last_key:bytes" (bytesToHex bytes) ++
  [ addKeyC "last_key:bytes:sha256(bytes+salt)" (C.sha256HexBytes [bytes, saltBytes]),
    addKeyC "last_key:bytes:sha256(bytes)" (C.sha256HexBytes [bytes]),
    addKeyC "last_key:bytes:sha256(salt+bytes)" (C.sha256HexBytes [saltBytes, bytes]) ] ++
  (if 32 ≤ bytes.length then addFromHex C "last_key:bytes:first32" (bytesToHex (bytes.take 32))
   else []) ++
  (if 48 ≤ bytes.length then addFromHex C "last_key:bytes:first48" (bytesToHex (bytes.take 48))
   else []) ++
  (if 64 ≤ bytes.length then
     addFromHex C "last_key:bytes:last32" (bytesToHex ((bytes.drop 32).take 32))
   else []) ++
  (let b64 := C.encodeBase64 bytes
   if b64 ≠ "" then
     [ addKeyC "last_key:bytes:base64" b64,
       addKeyC "last_key:bytes:sha256(b64+salt)" (C.sha256Hex (b64 ++ RAYCAST_SALT)) ]
   else [])

/-- The per-credential branch of `getWindowsKeyCandidates`
(lines 413-516). -/
def credCandidates (C : WinCodecs) (target : String) (blob : Bytes) : List KeyCandidate :=
  let pre := "cred:" ++ target
  addFromHex C (pre ++ ":bytes") (bytesToHex blob) ++
  [ addKeyC (pre ++ ":bytes:sha256(bytes+salt)") (C.sha256HexBytes [blob, saltBytes]),
    addKeyC (pre ++ ":bytes:sha256(bytes)") (C.sha256HexBytes [blob]),
    addKeyC (pre ++ ":bytes:sha256(salt+bytes)") (C.sha256HexBytes [saltBytes, blob]) ] ++
  (if 32 ≤ blob.length then addFromHex C (pre ++ ":bytes:first32") (bytesToHex (blob.take 32))
   else []) ++
  (if 48 ≤ blob.length then addFromHex C (pre ++ ":bytes:first48") (bytesToHex (blob.take 48))
   else []) ++
  (let utf8 := trimNulls (C.decodeUtf8 blob)
   if utf8 ≠ "" && isPrintableAscii utf8 then
     (addKeyC (pre ++ ":utf8") utf8 ::
       ((let h := C.sha256Hex (utf8 ++ RAYCAST_SALT)
         addKeyC (pre ++ ":utf8:sha256(+salt)") h ::
           addFromHex C (pre ++ ":utf8:sha256(+salt)") h) ++
        (let h := C.sha256Hex (RAYCAST_SALT ++ utf8)
         addKeyC (pre ++ ":utf8:sha256(salt+)") h ::
           addFromHex C (pre ++ ":utf8:sha256(salt+)") h) ++
        (let h := C.sha256Hex utf8
         addKeyC (pre ++ ":utf8:sha256(utf8)") h ::
           addFromHex C (pre ++ ":utf8:sha256(utf8)") h))) ++
     (if isEvenHexString utf8 then addFromHex C (pre ++ ":utf8-hex") utf8 else []) ++
     (match C.tryB64Decode utf8 with
      | some decoded =>
        addFromHex C (pre ++ ":utf8:base64-decoded") (bytesToHex decoded) ++
        [ addKeyC (pre ++ ":utf8:base64-decoded:sha256(bytes+salt)")
            (C.sha256HexBytes [decoded, saltBytes]) ] ++
        (if 32 ≤ decoded.length then
           addFromHex C (pre ++ ":utf8:base64-decoded:first32") (bytesToHex (decoded.take 32))
         else []) ++
        (if 48 ≤ decoded.length then
           addFromHex C (pre ++ ":utf8:base64-decoded:first48") (bytesToHex (decoded.take 48))
         else [])
      | none => [])
   else []) ++
  (let utf16 := trimNulls (C.decodeUtf16le blob)
   if utf16 ≠ "" && isPrintableAscii utf16 then
     [ addKeyC (pre ++ ":utf16le") utf16,
       addKeyC (pre ++ ":utf16le:sha256(+salt)") (C.sha256Hex (utf16 ++ RAYCAST_SALT)),
       addKeyC (pre ++ ":utf16le:sha256(salt+)") (C.sha256Hex (RAYCAST_SALT ++ utf16)),
       addKeyC (pre ++ ":utf16le:sha256(utf16)") (C.sha256Hex utf16) ]
   else []) ++
  (let b64 := C.encodeBase64 blob
   if b64 ≠ "" then
     [ addKeyC (pre ++ ":bytes:base64") b64,
       addKeyC (pre ++ ":bytes:base64:sha256(+salt)") (C.sha256Hex (b64 ++ RAYCAST_SALT)),
       addKeyC (pre ++ ":bytes:base64:sha256(salt+)") (C.sha256Hex (RAYCAST_SALT ++ b64)),
       addKeyC (pre ++ ":bytes:base64:sha256(b64)") (C.sha256Hex b64) ]
   else [])

/-- Secret-store environment of `getWindowsKeyCandidates`: the
`RAYBRIDGE_RAYCAST_DB_KEY` override, the `last_key` file bytes
(`none` when the file is missing or reading threw — the whole block is
inside a swallowed `try`), and the credential store (`none` when
`readWindowsCredentialBlob` returned null). -/
structure WinEnv where
  envKey : Option String
  lastKey : Option Bytes
  credBlob : String → Option Bytes

/-- The candidate list of `getWindowsKeyCandidates` before dedup and
reordering (lines 276-516): env override first, then `last_key`
derivations, then each credential target in order. -/
def getWindowsKeyCandidatesRaw (C : WinCodecs) (E : WinEnv) : List KeyCandidate :=
  (match E.envKey with
   | some v => if 0 < (jsTrim v).length then winEnvKeyCandidates C (jsTrim v) else []
   | none => []) ++
  (match E.lastKey with
   | some b => lastKeyCandidates C b
   | none => []) ++
  WINDOWS_CREDENTIAL_TARGETS.flatMap (fun t =>
    match E.credBlob t with
    | some b => credCandidates C t b
    | none => [])

/-- First-occurrence dedup (the `seen`-set filter of lines 518-525 and
967-973), keyed by an arbitrary projection. -/
def dedupByAux [DecidableEq β] (key : α → β) (seen : List β) : List α → List α
  | [] => []
  | x :: xs =>
    if key x ∈ seen then dedupByAux key seen xs
    else x :: dedupByAux key (key x :: seen) xs

/-- First-occurrence dedup of a list. -/
def dedupBy [DecidableEq β] (key : α → β) (l : List α) : List α :=
  dedupByAux key [] l

/-- The dedup key of `getWindowsKeyCandidates`:
`` `${c.keyPragma}:${c.keyExpr}` `` (the pragma is "key" or "hexkey",
so the pair carries the same information). -/
def candKey (c : KeyCandidate) : String × String := (c.keyPragma, c.keyExpr)

/-- The `isPriority` predicate of the Windows reordering
(lines 529-538). -/
def isPriorityCandidate (c : KeyCandidate) : Bool :=
  (strContains c.label "first32" || strContains c.label "first48" ||
   strContains c.label "last32" || strContains c.label "utf8-hex" ||
   (strStartsWith c.label "cred:" &&
     (strContains c.label ":utf8" || strContains c.label ":bytes:base64"))) &&
  (strContains c.label "raw" || strContains c.label "hexkey" ||
   strContains c.label ":utf8" || strContains c.label ":bytes:base64")

/-- Mirrors `getWindowsKeyCandidates` on the win32 platform: dedup
preserving first occurrence, then move priority candidates to the
front (lines 518-541). -/
def getWindowsKeyCandidates (C : WinCodecs) (E : WinEnv) : List KeyCandidate :=
  let deduped := dedupBy candKey (getWindowsKeyCandidatesRaw C E)
  deduped.filter isPriorityCandidate ++
    deduped.filter (fun c => !isPriorityCandidate c)

/-- Mirrors `getMacKeyCandidates` (lines 143-176): the override
short-circuits to a single candidate; otherwise the keychain secret is
read with `execFileSync` — which throws when the entry is missing, and
the function has no handler — and a single salted-hash candidate is
derived. `securityOut` is the keychain subprocess oracle. -/
def getMacKeyCandidates (envKey : Option String) (securityOut : Except String String)
    (sha256Hex : String → String) : Except String (List KeyCandidate) :=
  let derive : Except String (List KeyCandidate) :=
    match securityOut with
    | .error e => .error e
    | .ok out =>
      let keyHex := jsTrim out
      .ok [⟨"key", sqlStringLiteral (sha256Hex (keyHex ++ RAYCAST_SALT)),
            "mac:keychain sha256(keyHex+salt)"⟩]
  match envKey with
  | some v =>
    if 0 < (jsTrim v).length then
      .ok [⟨"key", sqlStringLiteral (jsTrim v), "env:RAYBRIDGE_RAYCAST_DB_KEY"⟩]
    else derive
  | none => derive

/-!
## Cipher/Init Candidate Generator (`getInitCandidates`)

This function reads no external state except `process.platform`, so it
is embedded as a function of that flag alone.
-/

/-- The `addWal` label/SQL transformation (line 917-918). -/
def walVariant (c : InitCandidate) : InitCandidate :=
  ⟨"PRAGMA mc_legacy_wal = 1;\n" ++ c.initSql, c.label ++ ":legacywal"⟩

/-- Emit a candidate and its legacy-WAL variant, the `add`/`addWal`
pair used throughout `getInitCandidates`. -/
def withWal (label initSql : String) : List InitCandidate :=
  [⟨initSql, label⟩, walVariant ⟨initSql, label⟩]

/-- The raw ordered init-candidate list of `getInitCandidates`
(lines 913-965), before dedup and platform reordering. -/
def getInitCandidatesRaw : List InitCandidate :=
  let chacha20 := "PRAGMA cipher = 'chacha20';\n"
  let sqlcipher := "PRAGMA cipher = 'sqlcipher';\n"
  let sqlcipher4Kdf := sqlcipher ++ "PRAGMA legacy = 4;\nPRAGMA kdf_iter = 256000;\n"
  let aes256cbc := "PRAGMA cipher = 'aes256cbc';\n"
  let aes128cbc := "PRAGMA cipher = 'aes128cbc';\n"
  let rc4 := "PRAGMA cipher = 'rc4';\n"
  withWal "default" "" ++
  withWal "chacha20" chacha20 ++
  withWal "chacha20:legacy1" (chacha20 ++ "PRAGMA legacy = 1;\n") ++
  withWal "sqlcipher:legacy4:kdf256k" sqlcipher4Kdf ++
  withWal "sqlcipher" sqlcipher ++
  withWal "sqlcipher:legacy4" (sqlcipher ++ "PRAGMA legacy = 4;\n") ++
  withWal "sqlcipher:legacy3" (sqlcipher ++ "PRAGMA legacy = 3;\n") ++
  withWal "sqlcipher:legacy2" (sqlcipher ++ "PRAGMA legacy = 2;\n") ++
  withWal "sqlcipher:legacy1" (sqlcipher ++ "PRAGMA legacy = 1;\n") ++
  withWal "aes256cbc" aes256cbc ++
  withWal "aes256cbc:legacy1" (aes256cbc ++ "PRAGMA legacy = 1;\n") ++
  withWal "aes128cbc" aes128cbc ++
  withWal "aes128cbc:legacy1" (aes128cbc ++ "PRAGMA legacy = 1;\n") ++
  withWal "rc4" rc4

/-- The Windows ranking of init labels (lines 978-986). -/
def initRank (label : String) : Nat :=
  if strStartsWith label "sqlcipher:legacy4:kdf256k" then 0
  else if strStartsWith label "sqlcipher" then 1
  else if strStartsWith label "default" then 2
  else if strStartsWith label "chacha20" then 3
  else if strStartsWith label "aes" then 4
  else if strStartsWith label "rc4" then 5
  else 9

/-- Mirrors `getInitCandidates` (lines 913-994): dedup by resulting
statement sequence; on win32, stable-sort by rank (expressed as
rank-bucket concatenation, which equals a stable sort by
`rank(a) - rank(b)` with the original index as tiebreak). -/
def getInitCandidates (isWin : Bool) : List InitCandidate :=
  let deduped := dedupBy (fun c => c.initSql) getInitCandidatesRaw
  if isWin then
    [0, 1, 2, 3, 4, 5, 9].flatMap (fun r =>
      deduped.filter (fun c => initRank c.label = r))
  else deduped

/-!
## Row Normalizer (src/auth-normalize.ts)

`JSON.parse` is abstracted as an oracle from strings to an inductive
JSON value (`none` models a parse exception, caught by
`safeJsonParse`). JS truthiness on the parsed value is embedded.
-/

/-- JSON values as produced by `JSON.parse`. -/
inductive JsonVal where
  | jnull
  | jbool (b : Bool)
  | jnum (n : Int)
  | jstr (s : String)
  | jarr (xs : List JsonVal)
  | jobj (fields : List (String × JsonVal))

/-- JS truthiness of a parsed JSON value (`!parsed`):
null, false, 0 and the empty string are falsy; arrays and objects are
always truthy. -/
def jsTruthy : JsonVal → Bool
  | .jnull => false
  | .jbool b => b
  | .jnum n => !(n = 0)
  | .jstr s => !(s = "")
  | .jarr _ => true
  | .jobj _ => true

/-- Mirrors `normalizeTokenSets` (src/auth-normalize.ts lines 17-22):
parse; bail out on a parse failure or a falsy value; wrap a non-array
in a one-element array; return `null` for an empty result. -/
def normalizeTokenSets (parse : String → Option JsonVal) (value : String) :
    Option (List JsonVal) :=
  match parse value with
  | none => none
  | some parsed =>
    if !jsTruthy parsed then none
    else
      let sets := match parsed with
        | .jarr xs => xs
        | v => [v]
      if 0 < sets.length then some sets else none

/-- One row of the `extensions` table as seen by
`normalizeExtensionsRows`; the `typeof x === "string"` guards become
`Option String` fields. -/
structure ExtRow where
  name : Option String
  tokenSets : Option String

/-- The token half of `normalizeExtensionsRows`
(src/auth-normalize.ts lines 38-62): rows with a non-empty string name
and a non-blank `tokenSets` payload contribute an entry exactly when
`normalizeTokenSets` yields one. -/
def normalizeExtensionsTokens (parse : String → Option JsonVal) (rows : List ExtRow) :
    List (String × List JsonVal) :=
  rows.filterMap (fun r =>
    match r.name with
    | some n =>
      if n = "" then none
      else
        match r.tokenSets with
        | some ts =>
          if 0 < (jsTrim ts).length then
            (normalizeTokenSets parse ts).map (fun s => (n, s))
          else none
        | none => none
    | none => none)

/-!
## Theorems
-/

/-- C3: for every query run by the Query Executor, a failure matching
the transient whitelist is retried up to a total of exactly 3 attempts
with strictly increasing, linear backoff delays, while a failure
outside the whitelist propagates after exactly 1 attempt. -/
theorem runSqlcipherQuery_retry_policy (outcome : Nat → QueryOutcome) :
    (∀ m1 m2 m3,
       outcome 1 = .failure m1 → outcome 2 = .failure m2 → outcome 3 = .failure m3 →
       isTransientMsg m1 = true → isTransientMsg m2 = true →
       runSqlcipherQuery outcome =
         ⟨.error m3, [1, 2, 3], [50 * 1, 50 * 2]⟩ ∧ 50 * 1 < 50 * 2) ∧
    (∀ m, outcome 1 = .failure m → isTransientMsg m = false →
       runSqlcipherQuery outcome = ⟨.error m, [1], []⟩) := by
  constructor
  · intro m1 m2 m3 h1 h2 h3 t1 t2
    refine ⟨?_, by norm_num⟩
    simp [runSqlcipherQuery, runQueryGo, h1, h2, h3, t1, t2]
  · intro m h1 hn
    simp [runSqlcipherQuery, runQueryGo, h1, hn]

/-- Concrete oracle: every attempt fails with a whitelisted message. -/
def c3TransientOutcome : Nat → QueryOutcome :=
  fun _ => .failure "database is locked"

/-- Concrete oracle: the first attempt fails with a non-whitelisted
message. -/
def c3FatalOutcome : Nat → QueryOutcome :=
  fun _ => .failure "unable to open database file"

/-- Witness for C3: a persistently locked database is retried exactly
3 times with 50ms then 100ms sleeps; an unrecognized failure
propagates after a single attempt. -/
theorem runSqlcipherQuery_retry_policy_witness :
    runSqlcipherQuery c3TransientOutcome =
      ⟨.error "database is locked", [1, 2, 3], [50 * 1, 50 * 2]⟩ ∧
    runSqlcipherQuery c3FatalOutcome =
      ⟨.error "unable to open database file", [1], []⟩ :=
  ⟨((runSqlcipherQuery_retry_policy c3TransientOutcome).1
      "database is locked" "database is locked" "database is locked"
      rfl rfl rfl (by decide) (by decide)).1,
   (runSqlcipherQuery_retry_policy c3FatalOutcome).2
      "unable to open database file" rfl (by decide)⟩

/-- C5 counterexample: when copying the vault into the private temp
directory fails (the live-lock fallback of src/auth.ts lines
1302-1310), the engine subprocess is pointed at the original vault
path itself — so the original IS opened by the engine subprocess
directly, contrary to the claim. -/
theorem prepareQueryAttempt_lock_fallback_counterexample :
    (prepareQueryAttempt false "/tmp/raybridge-db-abc/raycast-enc.sqlite"
        "/home/u/Raycast/raycast-enc.sqlite"
        ⟨"", "key", "''", none⟩ "SELECT 1;").targetDb =
      "/home/u/Raycast/raycast-enc.sqlite" := rfl

/-- C5 amended: an attempt targets the disposable temp copy exactly
when the copy succeeded; when copying fails (e.g. the live file is
locked) the attempt falls back to targeting the original vault path. -/
theorem prepareQueryAttempt_target (copyOk : Bool) (tmpDb dbPath : String)
    (cfg : SqlcipherOpenConfig) (sql : String) :
    (copyOk = true →
      (prepareQueryAttempt copyOk tmpDb dbPath cfg sql).targetDb = tmpDb) ∧
    (copyOk = false →
      (prepareQueryAttempt copyOk tmpDb dbPath cfg sql).targetDb = dbPath) := by
  constructor <;> intro h <;> subst h <;> rfl

/-- Witness for the amended C5. -/
theorem prepareQueryAttempt_target_witness :
    (prepareQueryAttempt true "/tmp/t/main.db" "/orig/main.db"
        ⟨"", "key", "''", none⟩ "SELECT 1;").targetDb = "/tmp/t/main.db" ∧
    (prepareQueryAttempt false "/tmp/t/main.db" "/orig/main.db"
        ⟨"", "key", "''", none⟩ "SELECT 1;").targetDb = "/orig/main.db" :=
  ⟨(prepareQueryAttempt_target true "/tmp/t/main.db" "/orig/main.db"
      ⟨"", "key", "''", none⟩ "SELECT 1;").1 rfl,
   (prepareQueryAttempt_target false "/tmp/t/main.db" "/orig/main.db"
      ⟨"", "key", "''", none⟩ "SELECT 1;").2 rfl⟩

/-- C9: once the cached OpenConfiguration is non-null, a call to the
Vault Opener returns exactly that configuration, leaves the cache
unchanged (so it is never replaced), does not invoke the Transparent
Decryptor and starts no probe attempt. -/
theorem getWorkingOpenConfig_cache_short_circuit (E : OpenerEnv)
    (c : SqlcipherOpenConfig) (h : E.cached = some c) :
    getWorkingOpenConfig E = ⟨.ok c, some c, false, []⟩ := by
  simp [getWorkingOpenConfig, h]

/-- A concrete opener environment with a primed cache whose probe
oracle succeeds everywhere (so any probing would be visible). -/
def c9Env : OpenerEnv :=
  { cached := some ⟨"PRAGMA cipher = 'sqlcipher';\n", "key", "'pw'", none⟩
    dbsNonempty := true
    transparent := some ⟨"", "key", "''", some (zeroBytes 32)⟩
    keyCandidates := [⟨"key", "'pw'", "l"⟩]
    initCandidates := [⟨"", "default"⟩]
    probe := fun _ _ => true
    wideFlag := true
    fullFlag := true }

/-- Witness for C9: a primed cache answers with the cached
configuration, an unchanged cache, no Transparent-Decryptor call and
an empty probe trace. -/
theorem getWorkingOpenConfig_cache_short_circuit_witness :
    getWorkingOpenConfig c9Env =
      ⟨.ok ⟨"PRAGMA cipher = 'sqlcipher';\n", "key", "'pw'", none⟩,
       some ⟨"PRAGMA cipher = 'sqlcipher';\n", "key", "'pw'", none⟩, false, []⟩ :=
  getWorkingOpenConfig_cache_short_circuit c9Env
    ⟨"PRAGMA cipher = 'sqlcipher';\n", "key", "'pw'", none⟩ rfl

/-- Concrete parse oracle for the empty-array payload. -/
def c8EmptyArrParse : String → Option JsonVal :=
  fun s => if s = "[]" then some (.jarr []) else none

/-- C8 counterexample: the payload `[]` parses to a JSON array of
length 0, but `normalizeTokenSets` yields no entry rather than a
zero-length token-set array — refuting the claim that an array payload
always yields an array of equal length. -/
theorem normalizeTokenSets_empty_array_counterexample :
    c8EmptyArrParse "[]" = some (JsonVal.jarr []) ∧
    normalizeTokenSets c8EmptyArrParse "[]" = none :=
  ⟨rfl, rfl⟩

/-- C8 amended: a payload parsing to a JSON object yields a
one-element token-set list; a payload parsing to a NON-EMPTY JSON
array yields the same list (hence of equal length); a payload that
fails to parse yields no entry in the output map (and the normalizer
is a total function, so it never throws); a payload parsing to an
empty array also yields no entry. -/
theorem normalizeTokenSets_cases (parse : String → Option JsonVal) (s : String) :
    (∀ fields, parse s = some (.jobj fields) →
       normalizeTokenSets parse s = some [.jobj fields]) ∧
    (∀ xs, parse s = some (.jarr xs) → xs ≠ [] →
       normalizeTokenSets parse s = some xs) ∧
    (parse s = none → normalizeTokenSets parse s = none) ∧
    (parse s = some (.jarr []) → normalizeTokenSets parse s = none) ∧
    (parse s = none → ∀ n,
       normalizeExtensionsTokens parse [⟨some n, some s⟩] = []) := by
  refine ⟨?_, ?_, ?_, ?_, ?_⟩
  · intro fields h
    simp [normalizeTokenSets, h, jsTruthy]
  · intro xs h hne
    have : 0 < xs.length := List.length_pos.mpr hne
    simp [normalizeTokenSets, h, jsTruthy, this]
  · intro h
    simp [normalizeTokenSets, h]
  · intro h
    simp [normalizeTokenSets, h, jsTruthy]
  · intro h n
    by_cases hn : n = ""
    · simp [normalizeExtensionsTokens, hn]
    · by_cases ht : 0 < (jsTrim s).length
      · simp [normalizeExtensionsTokens, hn, ht, normalizeTokenSets, h]
      · simp [normalizeExtensionsTokens, hn, ht]

/-- Concrete parse oracle covering the three payload shapes. -/
def c8Parse : String → Option JsonVal :=
  fun s =>
    if s = "\x7b\"accessToken\":\"a\"\x7d" then
      some (.jobj [("accessToken", .jstr "a")])
    else if s = "[\x7b\"accessToken\":\"a\"\x7d,\x7b\"accessToken\":\"b\"\x7d]" then
      some (.jarr [.jobj [("accessToken", .jstr "a")], .jobj [("accessToken", .jstr "b")]])
    else none

/-- Witness for the amended C8: an object payload yields one element,
a two-element array payload yields two, and malformed JSON yields no
map entry. -/
theorem normalizeTokenSets_cases_witness :
    normalizeTokenSets c8Parse "\x7b\"accessToken\":\"a\"\x7d" =
      some [.jobj [("accessToken", .jstr "a")]] ∧
    normalizeTokenSets c8Parse "[\x7b\"accessToken\":\"a\"\x7d,\x7b\"accessToken\":\"b\"\x7d]" =
      some [.jobj [("accessToken", .jstr "a")], .jobj [("accessToken", .jstr "b")]] ∧
    normalizeExtensionsTokens c8Parse [⟨some "ext", some "\x7b"⟩] = [] :=
  ⟨(normalizeTokenSets_cases c8Parse "\x7b\"accessToken\":\"a\"\x7d").1
      [("accessToken", .jstr "a")] rfl,
   (normalizeTokenSets_cases c8Parse
      "[\x7b\"accessToken\":\"a\"\x7d,\x7b\"accessToken\":\"b\"\x7d]").2.1
      [.jobj [("accessToken", .jstr "a")], .jobj [("accessToken", .jstr "b")]] rfl
      (by simp),
   (normalizeTokenSets_cases c8Parse "\x7b").2.2.2.2 rfl "ext"⟩

/-- Soundness of the key loop of the Transparent Decryptor: any
accepted configuration carries a tried key whose decryption both bears
the SQLite signature and passes the structural query. -/
theorem tryTransparentLoop_sound (O : CryptoOracle) (query : Bytes → QueryResult)
    (ct : Bytes) :
    ∀ keys cfg, tryTransparentLoop O query ct keys = some cfg →
      ∃ key plain, cfg = transparentConfig key ∧ key ∈ keys ∧
        transparentDecryptChain O ct key = some plain ∧
        plain.take 16 = SQLITE_HEADER ∧
        acceptStructuralQuery (query plain) = true := by
  intro keys
  induction keys with
  | nil => intro cfg h; simp [tryTransparentLoop] at h
  | cons key rest ih =>
    intro cfg h
    cases hchain : transparentDecryptChain O ct key with
    | none =>
      simp only [tryTransparentLoop, hchain] at h
      obtain ⟨k, p, h1, h2, h3, h4, h5⟩ := ih cfg h
      exact ⟨k, p, h1, List.mem_cons_of_mem _ h2, h3, h4, h5⟩
    | some plain =>
      simp only [tryTransparentLoop, hchain] at h
      by_cases hsig : plain.take 16 = SQLITE_HEADER
      · rw [if_pos (decide_eq_true hsig)] at h
        by_cases hacc : acceptStructuralQuery (query plain) = true
        · rw [if_pos hacc] at h
          exact ⟨key, plain, (Option.some_injective _ h).symm,
            List.mem_cons_self _ _, hchain, hsig, hacc⟩
        · rw [if_neg hacc] at h
          obtain ⟨k, p, h1, h2, h3, h4, h5⟩ := ih cfg h
          exact ⟨k, p, h1, List.mem_cons_of_mem _ h2, h3, h4, h5⟩
      · rw [if_neg (by simpa using hsig)] at h
        obtain ⟨k, p, h1, h2, h3, h4, h5⟩ := ih cfg h
        exact ⟨k, p, h1, List.mem_cons_of_mem _ h2, h3, h4, h5⟩

/-- C1: the Transparent File-Level Decryptor returns an accepted
OpenConfiguration only when, for the key it carries, the decrypted
plaintext's 16-byte prefix equals the SQLite file-format signature AND
the structural query on the materialized plaintext exited with status
0 and non-empty JSON output; a signature match with a failing
structural query never produces an accepted configuration. -/
theorem tryTransparentDecryptOpen_accepts_only_verified
    (O : CryptoOracle) (E : TransparentEnv) (cfg : SqlcipherOpenConfig)
    (h : tryTransparentDecryptOpen O E = some cfg) :
    ∃ ct key plain,
      E.ciphertext = some ct ∧
      cfg.transparentDecryptKey = some key ∧
      key ∈ transparentKeysToTry E.lastKey E.credBlob ∧
      transparentDecryptChain O ct key = some plain ∧
      plain.take 16 = SQLITE_HEADER ∧
      acceptStructuralQuery (E.runStructuralQuery plain) = true := by
  cases hw : E.platformWin with
  | false => simp [tryTransparentDecryptOpen, hw] at h
  | true =>
    cases hdb : E.dbFile with
    | none => simp [tryTransparentDecryptOpen, hw, hdb] at h
    | some dbp =>
      cases hct : E.ciphertext with
      | none => simp [tryTransparentDecryptOpen, hw, hdb, hct] at h
      | some ct =>
        by_cases hlen : ct.length < 16
        · simp [tryTransparentDecryptOpen, hw, hdb, hct, hlen] at h
        · simp only [tryTransparentDecryptOpen, hw, hdb, hct, hlen, Bool.not_true,
            Bool.false_eq_true, if_false] at h
          obtain ⟨key, plain, h1, h2, h3, h4, h5⟩ :=
            tryTransparentLoop_sound O E.runStructuralQuery ct _ cfg h
          exact ⟨ct, key, plain, rfl, by rw [h1]; rfl, h2, h3, h4, h5⟩

/-- Concrete crypto oracle for the C1 witness: CBC decryption yields
exactly the SQLite signature. -/
def c1Oracle : CryptoOracle :=
  { aescbcDecrypt := fun _ _ _ => some SQLITE_HEADER
    aesgcmDecrypt := fun _ _ _ _ => none
    chachaDecrypt := fun _ _ _ _ => none }

/-- Concrete environment for the C1 witness: a 16-byte encrypted file,
a 32-byte `last_key`, and a structural query returning status 0 with
JSON output. -/
def c1Env : TransparentEnv :=
  { platformWin := true
    dbFile := some "main.db"
    ciphertext := some (zeroBytes 16)
    lastKey := some (zeroBytes 32)
    credBlob := fun _ => none
    runStructuralQuery := fun _ => ⟨some 0, "[\x7b\"c\":1\x7d]"⟩ }

/-- Witness for C1: a configuration is actually produced in a run
where both checks pass, and the theorem's conclusion holds for it. -/
theorem tryTransparentDecryptOpen_accepts_only_verified_witness :
    tryTransparentDecryptOpen c1Oracle c1Env = some (transparentConfig (zeroBytes 32)) ∧
    ∃ ct key plain,
      c1Env.ciphertext = some ct ∧
      (transparentConfig (zeroBytes 32)).transparentDecryptKey = some key ∧
      key ∈ transparentKeysToTry c1Env.lastKey c1Env.credBlob ∧
      transparentDecryptChain c1Oracle ct key = some plain ∧
      plain.take 16 = SQLITE_HEADER ∧
      acceptStructuralQuery (c1Env.runStructuralQuery plain) = true :=
  ⟨by decide,
   tryTransparentDecryptOpen_accepts_only_verified c1Oracle c1Env
     (transparentConfig (zeroBytes 32)) (by decide)⟩

/-- `decryptFileAes256Cbc` is the ordered preference of its two IV
layouts: zero IV first, then file-leading IV. -/
theorem decryptFileAes256Cbc_split (O : CryptoOracle) (ct key : Bytes) :
    decryptFileAes256Cbc O ct key =
      firstSome [cbcZeroIvAttempt O ct key, cbcFileIvAttempt O ct key] := by
  unfold decryptFileAes256Cbc
  by_cases hk : key.length < 32
  · simp [cbcZeroIvAttempt, cbcFileIvAttempt, hk, firstSome]
  · simp only [hk, if_false]
    cases cbcZeroIvAttempt O ct key <;> cases cbcFileIvAttempt O ct key <;>
      simp [firstSome]

/-- Concrete oracle for the C6 counterexample: ChaCha20-Poly1305
decryption succeeds exactly when handed a 16-byte nonce. -/
def c6Oracle : CryptoOracle :=
  { aescbcDecrypt := fun _ _ _ => none
    aesgcmDecrypt := fun _ _ _ _ => none
    chachaDecrypt := fun _ nonce _ _ =>
      if nonce.length = 16 then some SQLITE_HEADER else none }

/-- C6 counterexample: the claimed final attempt — ChaCha20-Poly1305
with a 16-byte leading nonce — is never made: on a 48-byte file whose
only successful decryption is exactly that layout, the per-key chain of
`tryTransparentDecryptOpen` comes up empty. -/
theorem transparentDecryptChain_no_chacha16_counterexample :
    decryptFileChaCha20Poly1305 c6Oracle (zeroBytes 48) (zeroBytes 32) 16 =
      some SQLITE_HEADER ∧
    transparentDecryptChain c6Oracle (zeroBytes 48) (zeroBytes 32) = none := by
  constructor
  · decide
  · decide

/-- C6 amended: for each 32-byte-sliced raw key the Transparent
Decryptor attempts, in order: AES-256-CBC on the whole file with a
zero IV; AES-256-CBC with the file's first 16 bytes as IV; AES-256-GCM
with a 12-byte leading nonce and trailing 16-byte tag; AES-256-GCM
with a 16-byte leading nonce; and ChaCha20-Poly1305 with ONLY the
12-byte leading nonce layout — there is no ChaCha20-Poly1305 attempt
with a 16-byte nonce. -/
theorem transparentDecryptChain_attempt_order (O : CryptoOracle) (ct key : Bytes) :
    transparentDecryptChain O ct key =
      firstSome
        [ cbcZeroIvAttempt O ct key,
          cbcFileIvAttempt O ct key,
          decryptFileAes256Gcm O ct key 12,
          decryptFileAes256Gcm O ct key 16,
          decryptFileChaCha20Poly1305 O ct key 12 ] := by
  unfold transparentDecryptChain
  rw [decryptFileAes256Cbc_split]
  cases cbcZeroIvAttempt O ct key <;>
    cases cbcFileIvAttempt O ct key <;>
      cases decryptFileAes256Gcm O ct key 12 <;>
        cases decryptFileAes256Gcm O ct key 16 <;>
          cases decryptFileChaCha20Poly1305 O ct key 12 <;>
            simp [firstSome]

/-- Tag a task as a recorded attempt. -/
def mkAttempt (tag : StageTag) (t : InitCandidate × KeyCandidate) : ProbeAttempt :=
  ⟨tag, t.1, t.2⟩

/-- A stage that found no winner probed every task, and every probe
failed. -/
theorem runStageTasks_fst_none (probe : InitCandidate → KeyCandidate → Bool)
    (tag : StageTag) :
    ∀ tasks, (runStageTasks probe tag tasks).1 = none →
      (runStageTasks probe tag tasks).2 = tasks.map (mkAttempt tag) ∧
      ∀ t ∈ tasks, probe t.1 t.2 = false := by
  intro tasks
  induction tasks with
  | nil => intro _; simp [runStageTasks]
  | cons t rest ih =>
    obtain ⟨i, k⟩ := t
    intro h
    by_cases hp : probe i k = true
    · simp [runStageTasks, hp] at h
    · have hpf : probe i k = false := by simpa using hp
      simp only [runStageTasks, hpf, Bool.false_eq_true, if_false] at h ⊢
      obtain ⟨h1, h2⟩ := ih h
      refine ⟨by simp [mkAttempt, h1], ?_⟩
      intro u hu
      rcases List.mem_cons.mp hu with he | hm
      · subst he; simpa using hpf
      · exact h2 u hm

/-- Every attempt recorded by a winnerless stage failed. -/
theorem runStageTasks_fst_none_fail (probe : InitCandidate → KeyCandidate → Bool)
    (tag : StageTag) (tasks : List (InitCandidate × KeyCandidate))
    (h : (runStageTasks probe tag tasks).1 = none) :
    ∀ b ∈ (runStageTasks probe tag tasks).2, probe b.init b.key = false := by
  obtain ⟨h1, h2⟩ := runStageTasks_fst_none probe tag tasks h
  intro b hb
  rw [h1] at hb
  obtain ⟨t, htm, rfl⟩ := List.mem_map.mp hb
  simpa [mkAttempt] using h2 t htm

/-- A stage that found a winner stopped at its first success: the
trace is a failing prefix followed by the single successful attempt,
and the winner is built from that attempt. -/
theorem runStageTasks_fst_some (probe : InitCandidate → KeyCandidate → Bool)
    (tag : StageTag) :
    ∀ tasks w, (runStageTasks probe tag tasks).1 = some w →
      ∃ pre a, (runStageTasks probe tag tasks).2 = pre ++ [a] ∧
        (∀ b ∈ pre, probe b.init b.key = false) ∧
        probe a.init a.key = true ∧ w = probeWinner a.init a.key ∧ a.stage = tag := by
  intro tasks
  induction tasks with
  | nil => intro w h; simp [runStageTasks] at h
  | cons t rest ih =>
    obtain ⟨i, k⟩ := t
    intro w h
    by_cases hp : probe i k = true
    · simp only [runStageTasks, hp, if_true] at h ⊢
      refine ⟨[], ⟨tag, i, k⟩, by simp, by simp, by simpa using hp, ?_, rfl⟩
      exact (Option.some_injective _ h).symm
    · have hpf : probe i k = false := by simpa using hp
      simp only [runStageTasks, hpf, Bool.false_eq_true, if_false] at h ⊢
      obtain ⟨pre, a, h1, h2, h3, h4, h5⟩ := ih w h
      refine ⟨⟨tag, i, k⟩ :: pre, a, by simp [h1], ?_, h3, h4, h5⟩
      intro b hb
      rcases List.mem_cons.mp hb with he | hm
      · subst he; simpa using hpf
      · exact h2 b hm

/-- Every attempt recorded by a stage carries that stage's tag. -/
theorem runStageTasks_tags (probe : InitCandidate → KeyCandidate → Bool)
    (tag : StageTag) :
    ∀ tasks, ∀ a ∈ (runStageTasks probe tag tasks).2, a.stage = tag := by
  intro tasks
  induction tasks with
  | nil => intro a ha; simp [runStageTasks] at ha
  | cons t rest ih =>
    obtain ⟨i, k⟩ := t
    intro a ha
    by_cases hp : probe i k = true
    · simp only [runStageTasks, hp, if_true] at ha
      simp at ha
      subst ha; rfl
    · have hpf : probe i k = false := by simpa using hp
      simp only [runStageTasks, hpf, Bool.false_eq_true, if_false] at ha
      rcases List.mem_cons.mp ha with he | hm
      · subst he; rfl
      · exact ih a hm

/-- The attempts of one stage within a trace. -/
def attemptsOfStage (tag : StageTag) (l : List ProbeAttempt) : List ProbeAttempt :=
  l.filter (fun a => a.stage == tag)

/-- `attemptsOfStage` distributes over concatenation. -/
theorem attemptsOfStage_append (tag : StageTag) (l1 l2 : List ProbeAttempt) :
    attemptsOfStage tag (l1 ++ l2) = attemptsOfStage tag l1 ++ attemptsOfStage tag l2 :=
  List.filter_append _ _

/-- A uniformly tagged trace is its own stage filter. -/
theorem attemptsOfStage_all (tag : StageTag) (l : List ProbeAttempt)
    (h : ∀ a ∈ l, a.stage = tag) : attemptsOfStage tag l = l :=
  List.filter_eq_self.mpr (fun a ha => by simpa using h a ha)

/-- A uniformly tagged trace has no attempts of another stage. -/
theorem attemptsOfStage_other (tag tag2 : StageTag) (l : List ProbeAttempt)
    (h : ∀ a ∈ l, a.stage = tag) (hne : tag2 ≠ tag) : attemptsOfStage tag2 l = [] := by
  rw [attemptsOfStage, List.filter_eq_nil_iff]
  intro a ha
  simp [h a ha, hne.symm]

/-- The amended staging contract of the Vault Opener (C2), for a call
with a cold cache and at least one DB file. It covers: immediate
termination on Transparent-Decryptor success with no probing; stage-3
probes happening only under the wide OR full opt-in and stage-4 probes
only under the full opt-in; the probe trace decomposing into the four
stage blocks in order; the search stopping at the first successful
probe, which becomes the returned and cached configuration; and, on
total exhaustion, the single aggregated error. -/
def OpenerStagingSpec (E : OpenerEnv) : Prop :=
  (∀ t, E.transparent = some t →
     getWorkingOpenConfig E = ⟨.ok t, some t, true, []⟩) ∧
  (E.transparent = none →
    (∀ a ∈ (getWorkingOpenConfig E).attempts, a.stage = StageTag.stage3 →
       (E.fullFlag || E.wideFlag) = true) ∧
    (∀ a ∈ (getWorkingOpenConfig E).attempts, a.stage = StageTag.stage4 →
       E.fullFlag = true) ∧
    ((getWorkingOpenConfig E).attempts =
       attemptsOfStage .stage1 (getWorkingOpenConfig E).attempts ++
       attemptsOfStage .stage2 (getWorkingOpenConfig E).attempts ++
       attemptsOfStage .stage3 (getWorkingOpenConfig E).attempts ++
       attemptsOfStage .stage4 (getWorkingOpenConfig E).attempts) ∧
    (∀ w, (getWorkingOpenConfig E).result = .ok w →
       ∃ pre a, (getWorkingOpenConfig E).attempts = pre ++ [a] ∧
         (∀ b ∈ pre, E.probe b.init b.key = false) ∧
         E.probe a.init a.key = true ∧ w = probeWinner a.init a.key ∧
         (getWorkingOpenConfig E).cachedAfter = some w) ∧
    ((∀ i k, E.probe i k = false) → E.keyCandidates.isEmpty = false →
       (getWorkingOpenConfig E).result = .error (exhaustionError E.fullFlag)))

/-- `probeStage` version of `runStageTasks_tags`. -/
theorem probeStage_tags (probe : InitCandidate → KeyCandidate → Bool) (tag : StageTag)
    (inits : List InitCandidate) (keys : List KeyCandidate) :
    ∀ a ∈ (probeStage probe tag inits keys).2, a.stage = tag :=
  runStageTasks_tags probe tag _

/-- `probeStage` version of `runStageTasks_fst_none_fail`. -/
theorem probeStage_fst_none_fail (probe : InitCandidate → KeyCandidate → Bool)
    (tag : StageTag) (inits : List InitCandidate) (keys : List KeyCandidate)
    (h : (probeStage probe tag inits keys).1 = none) :
    ∀ b ∈ (probeStage probe tag inits keys).2, probe b.init b.key = false :=
  runStageTasks_fst_none_fail probe tag _ h

/-- `probeStage` version of `runStageTasks_fst_some`. -/
theorem probeStage_fst_some (probe : InitCandidate → KeyCandidate → Bool)
    (tag : StageTag) (inits : List InitCandidate) (keys : List KeyCandidate)
    (w : SqlcipherOpenConfig) (h : (probeStage probe tag inits keys).1 = some w) :
    ∃ pre a, (probeStage probe tag inits keys).2 = pre ++ [a] ∧
      (∀ b ∈ pre, probe b.init b.key = false) ∧
      probe a.init a.key = true ∧ w = probeWinner a.init a.key ∧ a.stage = tag :=
  runStageTasks_fst_some probe tag _ w h

/-- A winnerless `probeStage` over a non-empty task set probes a task;
specialised to derive a contradiction from an everywhere-failing probe
is not needed — instead: if every probe fails, every stage is
winnerless. -/
theorem probeStage_fst_none_of_all_fail (probe : InitCandidate → KeyCandidate → Bool)
    (tag : StageTag) (inits : List InitCandidate) (keys : List KeyCandidate)
    (hall : ∀ i k, probe i k = false) :
    (probeStage probe tag inits keys).1 = none := by
  cases hres : (probeStage probe tag inits keys).1 with
  | none => rfl
  | some w =>
    obtain ⟨_, a, _, _, h3, _, _⟩ := probeStage_fst_some probe tag inits keys w hres
    rw [hall a.init a.key] at h3
    exact absurd h3 (by decide)

/-- C2 amended: with a cold cache and an existing vault file, the
Vault Opener tries the Transparent Decryptor before any cipher probing
and terminates immediately on its success; otherwise it runs the
stages in order (small cipher prefix × small key prefix), (small
cipher prefix × all keys), then (all ciphers × small key prefix) when
the wide opt-in flag OR the full-scan opt-in flag is set, then
(all × all) only when the full-scan opt-in flag is set; the search
stops at the first successful probe, whose configuration is returned
and cached; and on total exhaustion exactly one aggregated error is
raised. -/
theorem getWorkingOpenConfig_staging (E : OpenerEnv)
    (hc : E.cached = none) (hdbs : E.dbsNonempty = true) :
    OpenerStagingSpec E := by
  constructor
  · intro t ht
    simp [getWorkingOpenConfig, hc, hdbs, ht]
  · intro ht
    by_cases hke : E.keyCandidates.isEmpty
    · have hkeT : E.keyCandidates.isEmpty = true := hke
      have hG : getWorkingOpenConfig E =
          ⟨.error "No Raycast DB key candidates found", none, true, []⟩ := by
        simp [getWorkingOpenConfig, hc, hdbs, ht, hkeT]
      have hA : (getWorkingOpenConfig E).attempts = [] := by rw [hG]
      have hR : (getWorkingOpenConfig E).result =
          .error "No Raycast DB key candidates found" := by rw [hG]
      refine ⟨?_, ?_, ?_, ?_, ?_⟩
      · intro a ha; rw [hA] at ha; exact absurd ha (List.not_mem_nil a)
      · intro a ha; rw [hA] at ha; exact absurd ha (List.not_mem_nil a)
      · rw [hA]; simp [attemptsOfStage]
      · intro w hw; rw [hR] at hw; exact absurd hw (by simp)
      · intro _ hkf; rw [hkeT] at hkf; exact absurd hkf (by decide)
    · have hkf : E.keyCandidates.isEmpty = false := by simpa using hke
      cases h1 : (stage1Run E).1 with
      | some w1 =>
        have hG : getWorkingOpenConfig E = ⟨.ok w1, some w1, true, (stage1Run E).2⟩ := by
          simp [getWorkingOpenConfig, hc, hdbs, ht, hkf, h1]
        have hA : (getWorkingOpenConfig E).attempts = (stage1Run E).2 := by rw [hG]
        have hR : (getWorkingOpenConfig E).result = .ok w1 := by rw [hG]
        have hCA : (getWorkingOpenConfig E).cachedAfter = some w1 := by rw [hG]
        have hT1 : ∀ a ∈ (stage1Run E).2, a.stage = StageTag.stage1 :=
          probeStage_tags E.probe _ _ _
        refine ⟨?_, ?_, ?_, ?_, ?_⟩
        · intro a ha h3s
          rw [hA] at ha
          exact absurd ((hT1 a ha).symm.trans h3s) (by decide)
        · intro a ha h4s
          rw [hA] at ha
          exact absurd ((hT1 a ha).symm.trans h4s) (by decide)
        · rw [hA, attemptsOfStage_all _ _ hT1,
            attemptsOfStage_other _ _ _ hT1 (by decide),
            attemptsOfStage_other _ _ _ hT1 (by decide),
            attemptsOfStage_other _ _ _ hT1 (by decide)]
          simp
        · intro w hw
          rw [hR] at hw
          injection hw with hww
          subst hww
          obtain ⟨pre, a, e1, e2, e3, e4, _⟩ :=
            probeStage_fst_some E.probe .stage1 (fastInits E) (fastKeys E) _ h1
          exact ⟨pre, a, by rw [hA]; exact e1, e2, e3, e4, hCA⟩
        · intro hall _
          have hnone : (stage1Run E).1 = none :=
            probeStage_fst_none_of_all_fail E.probe _ _ _ hall
          rw [h1] at hnone
          simp at hnone
      | none =>
        cases h2 : (stage2Run E).1 with
        | some w2 =>
          have hG : getWorkingOpenConfig E =
              ⟨.ok w2, some w2, true, (stage1Run E).2 ++ (stage2Run E).2⟩ := by
            simp [getWorkingOpenConfig, hc, hdbs, ht, hkf, h1, h2]
          have hA : (getWorkingOpenConfig E).attempts =
              (stage1Run E).2 ++ (stage2Run E).2 := by rw [hG]
          have hR : (getWorkingOpenConfig E).result = .ok w2 := by rw [hG]
          have hCA : (getWorkingOpenConfig E).cachedAfter = some w2 := by rw [hG]
          have hT1 : ∀ a ∈ (stage1Run E).2, a.stage = StageTag.stage1 :=
            probeStage_tags E.probe _ _ _
          have hT2 : ∀ a ∈ (stage2Run E).2, a.stage = StageTag.stage2 :=
            probeStage_tags E.probe _ _ _
          have hF1 : ∀ b ∈ (stage1Run E).2, E.probe b.init b.key = false :=
            probeStage_fst_none_fail E.probe _ _ _ h1
          refine ⟨?_, ?_, ?_, ?_, ?_⟩
          · intro a ha h3s
            rw [hA] at ha
            rcases List.mem_append.mp ha with h | h
            · exact absurd ((hT1 a h).symm.trans h3s) (by decide)
            · exact absurd ((hT2 a h).symm.trans h3s) (by decide)
          · intro a ha h4s
            rw [hA] at ha
            rcases List.mem_append.mp ha with h | h
            · exact absurd ((hT1 a h).symm.trans h4s) (by decide)
            · exact absurd ((hT2 a h).symm.trans h4s) (by decide)
          · rw [hA]
            simp only [attemptsOfStage_append]
            rw [attemptsOfStage_all _ _ hT1, attemptsOfStage_all _ _ hT2,
              attemptsOfStage_other _ _ _ hT1 (by decide),
              attemptsOfStage_other _ _ _ hT1 (by decide),
              attemptsOfStage_other _ _ _ hT1 (by decide),
              attemptsOfStage_other _ _ _ hT2 (by decide),
              attemptsOfStage_other _ _ _ hT2 (by decide),
              attemptsOfStage_other _ _ _ hT2 (by decide)]
            simp
          · intro w hw
            rw [hR] at hw
            injection hw with hww
            subst hww
            obtain ⟨pre, a, e1, e2, e3, e4, _⟩ :=
              probeStage_fst_some E.probe .stage2 (fastInits E) E.keyCandidates _ h2
            refine ⟨(stage1Run E).2 ++ pre, a, ?_, ?_, e3, e4, hCA⟩
            · rw [hA]
              have e1' : (stage2Run E).2 = pre ++ [a] := e1
              rw [e1', List.append_assoc]
            · intro b hb
              rcases List.mem_append.mp hb with h | h
              · exact hF1 b h
              · exact e2 b h
          · intro hall _
            have hnone : (stage2Run E).1 = none :=
              probeStage_fst_none_of_all_fail E.probe _ _ _ hall
            rw [h2] at hnone
            simp at hnone
        | none =>
          cases hwide : E.fullFlag || E.wideFlag with
          | false =>
            have hfull : E.fullFlag = false := by
              revert hwide; cases E.fullFlag <;> simp
            have hwV : E.wideFlag = false := by
              revert hwide; cases E.wideFlag <;> cases E.fullFlag <;> simp
            have hG : getWorkingOpenConfig E =
                ⟨.error (exhaustionError E.fullFlag), none, true,
                 (stage1Run E).2 ++ (stage2Run E).2⟩ := by
              simp [getWorkingOpenConfig, hc, hdbs, ht, hkf, h1, h2, hfull, hwV]
            have hA : (getWorkingOpenConfig E).attempts =
                (stage1Run E).2 ++ (stage2Run E).2 := by rw [hG]
            have hR : (getWorkingOpenConfig E).result =
                .error (exhaustionError E.fullFlag) := by rw [hG]
            have hT1 : ∀ a ∈ (stage1Run E).2, a.stage = StageTag.stage1 :=
              probeStage_tags E.probe _ _ _
            have hT2 : ∀ a ∈ (stage2Run E).2, a.stage = StageTag.stage2 :=
              probeStage_tags E.probe _ _ _
            refine ⟨?_, ?_, ?_, ?_, ?_⟩
            · intro a ha h3s
              rw [hA] at ha
              rcases List.mem_append.mp ha with h | h
              · exact absurd ((hT1 a h).symm.trans h3s) (by decide)
              · exact absurd ((hT2 a h).symm.trans h3s) (by decide)
            · intro a ha h4s
              rw [hA] at ha
              rcases List.mem_append.mp ha with h | h
              · exact absurd ((hT1 a h).symm.trans h4s) (by decide)
              · exact absurd ((hT2 a h).symm.trans h4s) (by decide)
            · rw [hA]
              simp only [attemptsOfStage_append]
              rw [attemptsOfStage_all _ _ hT1, attemptsOfStage_all _ _ hT2,
                attemptsOfStage_other _ _ _ hT1 (by decide),
                attemptsOfStage_other _ _ _ hT1 (by decide),
                attemptsOfStage_other _ _ _ hT1 (by decide),
                attemptsOfStage_other _ _ _ hT2 (by decide),
                attemptsOfStage_other _ _ _ hT2 (by decide),
                attemptsOfStage_other _ _ _ hT2 (by decide)]
              simp
            · intro w hw
              rw [hR] at hw
              exact absurd hw (by simp)
            · intro _ _
              rw [hR]
          | true =>
            cases h3 : (stage3Run E).1 with
            | some w3 =>
              have hG : getWorkingOpenConfig E =
                  ⟨.ok w3, some w3, true,
                   (stage1Run E).2 ++ (stage2Run E).2 ++ (stage3Run E).2⟩ := by
                simp [getWorkingOpenConfig, hc, hdbs, ht, hkf, h1, h2, hwide, h3]
              have hA : (getWorkingOpenConfig E).attempts =
                  (stage1Run E).2 ++ (stage2Run E).2 ++ (stage3Run E).2 := by rw [hG]
              have hR : (getWorkingOpenConfig E).result = .ok w3 := by rw [hG]
              have hCA : (getWorkingOpenConfig E).cachedAfter = some w3 := by rw [hG]
              have hT1 : ∀ a ∈ (stage1Run E).2, a.stage = StageTag.stage1 :=
                probeStage_tags E.probe _ _ _
              have hT2 : ∀ a ∈ (stage2Run E).2, a.stage = StageTag.stage2 :=
                probeStage_tags E.probe _ _ _
              have hT3 : ∀ a ∈ (stage3Run E).2, a.stage = StageTag.stage3 :=
                probeStage_tags E.probe _ _ _
              have hF1 : ∀ b ∈ (stage1Run E).2, E.probe b.init b.key = false :=
                probeStage_fst_none_fail E.probe _ _ _ h1
              have hF2 : ∀ b ∈ (stage2Run E).2, E.probe b.init b.key = false :=
                probeStage_fst_none_fail E.probe _ _ _ h2
              refine ⟨?_, ?_, ?_, ?_, ?_⟩
              · intro a _ _
                rfl
              · intro a ha h4s
                rw [hA] at ha
                rcases List.mem_append.mp ha with h | h
                · rcases List.mem_append.mp h with h | h
                  · exact absurd ((hT1 a h).symm.trans h4s) (by decide)
                  · exact absurd ((hT2 a h).symm.trans h4s) (by decide)
                · exact absurd ((hT3 a h).symm.trans h4s) (by decide)
              · rw [hA]
                simp only [attemptsOfStage_append]
                rw [attemptsOfStage_all _ _ hT1, attemptsOfStage_all _ _ hT2,
                  attemptsOfStage_all _ _ hT3,
                  attemptsOfStage_other _ _ _ hT1 (by decide),
                  attemptsOfStage_other _ _ _ hT1 (by decide),
                  attemptsOfStage_other _ _ _ hT1 (by decide),
                  attemptsOfStage_other _ _ _ hT2 (by decide),
                  attemptsOfStage_other _ _ _ hT2 (by decide),
                  attemptsOfStage_other _ _ _ hT2 (by decide),
                  attemptsOfStage_other _ _ _ hT3 (by decide),
                  attemptsOfStage_other _ _ _ hT3 (by decide),
                  attemptsOfStage_other _ _ _ hT3 (by decide)]
                simp
              · intro w hw
                rw [hR] at hw
                injection hw with hww
                subst hww
                obtain ⟨pre, a, e1, e2, e3, e4, _⟩ :=
                  probeStage_fst_some E.probe .stage3 E.initCandidates (fastKeys E) _ h3
                refine ⟨(stage1Run E).2 ++ (stage2Run E).2 ++ pre, a, ?_, ?_, e3, e4, hCA⟩
                · rw [hA]
                  have e1' : (stage3Run E).2 = pre ++ [a] := e1
                  rw [e1']; simp [List.append_assoc]
                · intro b hb
                  rcases List.mem_append.mp hb with h | h
                  · rcases List.mem_append.mp h with h | h
                    · exact hF1 b h
                    · exact hF2 b h
                  · exact e2 b h
              · intro hall _
                have hnone : (stage3Run E).1 = none :=
                  probeStage_fst_none_of_all_fail E.probe _ _ _ hall
                rw [h3] at hnone
                simp at hnone
            | none =>
              cases hfull : E.fullFlag with
              | false =>
                have hwV : E.wideFlag = true := by
                  revert hwide; rw [hfull]; simp
                have hG : getWorkingOpenConfig E =
                    ⟨.error (exhaustionError E.fullFlag), none, true,
                     (stage1Run E).2 ++ (stage2Run E).2 ++ (stage3Run E).2⟩ := by
                  simp [getWorkingOpenConfig, hc, hdbs, ht, hkf, h1, h2, hwV, h3, hfull]
                have hA : (getWorkingOpenConfig E).attempts =
                    (stage1Run E).2 ++ (stage2Run E).2 ++ (stage3Run E).2 := by rw [hG]
                have hR : (getWorkingOpenConfig E).result =
                    .error (exhaustionError E.fullFlag) := by rw [hG]
                have hT1 : ∀ a ∈ (stage1Run E).2, a.stage = StageTag.stage1 :=
                  probeStage_tags E.probe _ _ _
                have hT2 : ∀ a ∈ (stage2Run E).2, a.stage = StageTag.stage2 :=
                  probeStage_tags E.probe _ _ _
                have hT3 : ∀ a ∈ (stage3Run E).2, a.stage = StageTag.stage3 :=
                  probeStage_tags E.probe _ _ _
                refine ⟨?_, ?_, ?_, ?_, ?_⟩
                · intro a _ _
                  rfl
                · intro a ha h4s
                  rw [hA] at ha
                  rcases List.mem_append.mp ha with h | h
                  · rcases List.mem_append.mp h with h | h
                    · exact absurd ((hT1 a h).symm.trans h4s) (by decide)
                    · exact absurd ((hT2 a h).symm.trans h4s) (by decide)
                  · exact absurd ((hT3 a h).symm.trans h4s) (by decide)
                · rw [hA]
                  simp only [attemptsOfStage_append]
                  rw [attemptsOfStage_all _ _ hT1, attemptsOfStage_all _ _ hT2,
                    attemptsOfStage_all _ _ hT3,
                    attemptsOfStage_other _ _ _ hT1 (by decide),
                    attemptsOfStage_other _ _ _ hT1 (by decide),
                    attemptsOfStage_other _ _ _ hT1 (by decide),
                    attemptsOfStage_other _ _ _ hT2 (by decide),
                    attemptsOfStage_other _ _ _ hT2 (by decide),
                    attemptsOfStage_other _ _ _ hT2 (by decide),
                    attemptsOfStage_other _ _ _ hT3 (by decide),
                    attemptsOfStage_other _ _ _ hT3 (by decide),
                    attemptsOfStage_other _ _ _ hT3 (by decide)]
                  simp
                · intro w hw
                  rw [hR] at hw
                  exact absurd hw (by simp)
                · intro _ _
                  rw [hR, hfull]
              | true =>
                cases h4 : (stage4Run E).1 with
                | some w4 =>
                  have hG : getWorkingOpenConfig E =
                      ⟨.ok w4, some w4, true,
                       (stage1Run E).2 ++ (stage2Run E).2 ++ (stage3Run E).2 ++
                         (stage4Run E).2⟩ := by
                    simp [getWorkingOpenConfig, hc, hdbs, ht, hkf, h1, h2, hwide, h3,
                      hfull, h4]
                  have hA : (getWorkingOpenConfig E).attempts =
                      (stage1Run E).2 ++ (stage2Run E).2 ++ (stage3Run E).2 ++
                        (stage4Run E).2 := by rw [hG]
                  have hR : (getWorkingOpenConfig E).result = .ok w4 := by rw [hG]
                  have hCA : (getWorkingOpenConfig E).cachedAfter = some w4 := by rw [hG]
                  have hT1 : ∀ a ∈ (stage1Run E).2, a.stage = StageTag.stage1 :=
                    probeStage_tags E.probe _ _ _
                  have hT2 : ∀ a ∈ (stage2Run E).2, a.stage = StageTag.stage2 :=
                    probeStage_tags E.probe _ _ _
                  have hT3 : ∀ a ∈ (stage3Run E).2, a.stage = StageTag.stage3 :=
                    probeStage_tags E.probe _ _ _
                  have hT4 : ∀ a ∈ (stage4Run E).2, a.stage = StageTag.stage4 :=
                    probeStage_tags E.probe _ _ _
                  have hF1 : ∀ b ∈ (stage1Run E).2, E.probe b.init b.key = false :=
                    probeStage_fst_none_fail E.probe _ _ _ h1
                  have hF2 : ∀ b ∈ (stage2Run E).2, E.probe b.init b.key = false :=
                    probeStage_fst_none_fail E.probe _ _ _ h2
                  have hF3 : ∀ b ∈ (stage3Run E).2, E.probe b.init b.key = false :=
                    probeStage_fst_none_fail E.probe _ _ _ h3
                  refine ⟨?_, ?_, ?_, ?_, ?_⟩
                  · intro a _ _
                    rfl
                  · intro a _ _
                    rfl
                  · rw [hA]
                    simp only [attemptsOfStage_append]
                    rw [attemptsOfStage_all _ _ hT1, attemptsOfStage_all _ _ hT2,
                      attemptsOfStage_all _ _ hT3, attemptsOfStage_all _ _ hT4,
                      attemptsOfStage_other _ _ _ hT1 (by decide),
                      attemptsOfStage_other _ _ _ hT1 (by decide),
                      attemptsOfStage_other _ _ _ hT1 (by decide),
                      attemptsOfStage_other _ _ _ hT2 (by decide),
                      attemptsOfStage_other _ _ _ hT2 (by decide),
                      attemptsOfStage_other _ _ _ hT2 (by decide),
                      attemptsOfStage_other _ _ _ hT3 (by decide),
                      attemptsOfStage_other _ _ _ hT3 (by decide),
                      attemptsOfStage_other _ _ _ hT3 (by decide),
                      attemptsOfStage_other _ _ _ hT4 (by decide),
                      attemptsOfStage_other _ _ _ hT4 (by decide),
                      attemptsOfStage_other _ _ _ hT4 (by decide)]
                    simp
                  · intro w hw
                    rw [hR] at hw
                    injection hw with hww
                    subst hww
                    obtain ⟨pre, a, e1, e2, e3, e4, _⟩ :=
                      probeStage_fst_some E.probe .stage4 E.initCandidates
                        E.keyCandidates _ h4
                    refine ⟨(stage1Run E).2 ++ (stage2Run E).2 ++ (stage3Run E).2 ++ pre,
                      a, ?_, ?_, e3, e4, hCA⟩
                    · rw [hA]
                      have e1' : (stage4Run E).2 = pre ++ [a] := e1
                      rw [e1']; simp [List.append_assoc]
                    · intro b hb
                      rcases List.mem_append.mp hb with h | h
                      · rcases List.mem_append.mp h with h | h
                        · rcases List.mem_append.mp h with h | h
                          · exact hF1 b h
                          · exact hF2 b h
                        · exact hF3 b h
                      · exact e2 b h
                  · intro hall _
                    have hnone : (stage4Run E).1 = none :=
                      probeStage_fst_none_of_all_fail E.probe _ _ _ hall
                    rw [h4] at hnone
                    simp at hnone
                | none =>
                  have hG : getWorkingOpenConfig E =
                      ⟨.error (exhaustionError E.fullFlag), none, true,
                       (stage1Run E).2 ++ (stage2Run E).2 ++ (stage3Run E).2 ++
                         (stage4Run E).2⟩ := by
                    simp [getWorkingOpenConfig, hc, hdbs, ht, hkf, h1, h2, hwide, h3,
                      hfull, h4]
                  have hA : (getWorkingOpenConfig E).attempts =
                      (stage1Run E).2 ++ (stage2Run E).2 ++ (stage3Run E).2 ++
                        (stage4Run E).2 := by rw [hG]
                  have hR : (getWorkingOpenConfig E).result =
                      .error (exhaustionError E.fullFlag) := by rw [hG]
                  have hT1 : ∀ a ∈ (stage1Run E).2, a.stage = StageTag.stage1 :=
                    probeStage_tags E.probe _ _ _
                  have hT2 : ∀ a ∈ (stage2Run E).2, a.stage = StageTag.stage2 :=
                    probeStage_tags E.probe _ _ _
                  have hT3 : ∀ a ∈ (stage3Run E).2, a.stage = StageTag.stage3 :=
                    probeStage_tags E.probe _ _ _
                  have hT4 : ∀ a ∈ (stage4Run E).2, a.stage = StageTag.stage4 :=
                    probeStage_tags E.probe _ _ _
                  refine ⟨?_, ?_, ?_, ?_, ?_⟩
                  · intro a _ _
                    rfl
                  · intro a _ _
                    rfl
                  · rw [hA]
                    simp only [attemptsOfStage_append]
                    rw [attemptsOfStage_all _ _ hT1, attemptsOfStage_all _ _ hT2,
                      attemptsOfStage_all _ _ hT3, attemptsOfStage_all _ _ hT4,
                      attemptsOfStage_other _ _ _ hT1 (by decide),
                      attemptsOfStage_other _ _ _ hT1 (by decide),
                      attemptsOfStage_other _ _ _ hT1 (by decide),
                      attemptsOfStage_other _ _ _ hT2 (by decide),
                      attemptsOfStage_other _ _ _ hT2 (by decide),
                      attemptsOfStage_other _ _ _ hT2 (by decide),
                      attemptsOfStage_other _ _ _ hT3 (by decide),
                      attemptsOfStage_other _ _ _ hT3 (by decide),
                      attemptsOfStage_other _ _ _ hT3 (by decide),
                      attemptsOfStage_other _ _ _ hT4 (by decide),
                      attemptsOfStage_other _ _ _ hT4 (by decide),
                      attemptsOfStage_other _ _ _ hT4 (by decide)]
                    simp
                  · intro w hw
                    rw [hR] at hw
                    exact absurd hw (by simp)
                  · intro _ _
                    rw [hR, hfull]

/-- C2 counterexample environment: the full-scan flag is set, the wide
flag is NOT, and the only working (init, key) pair lies outside the
fast init prefix — reachable only through stage 3. -/
def c2cEnv : OpenerEnv :=
  { cached := none
    dbsNonempty := true
    transparent := none
    keyCandidates := [⟨"key", "'pw'", "k"⟩]
    initCandidates :=
      [⟨"", "default"⟩,
       ⟨"PRAGMA cipher = 'chacha20';\n", "chacha20"⟩,
       ⟨"PRAGMA cipher = 'rc4';\n", "rc4"⟩]
    probe := fun i _ => i.label == "rc4"
    wideFlag := false
    fullFlag := true }

/-- C2 counterexample: with the wide opt-in flag UNSET (and only the
full-scan flag set), the Vault Opener still runs stage 3
(all ciphers × small key prefix) — `wideProbe` is
`fullProbe || RAYBRIDGE_DB_PROBE_WIDE` — refuting the claim that
stage 3 runs only when the wide flag is set. -/
theorem getWorkingOpenConfig_stage3_counterexample :
    c2cEnv.wideFlag = false ∧
    (getWorkingOpenConfig c2cEnv).attempts.any
      (fun a => a.stage == StageTag.stage3) = true ∧
    (getWorkingOpenConfig c2cEnv).result =
      .ok ⟨"PRAGMA cipher = 'rc4';\n", "key", "'pw'", none⟩ := by
  refine ⟨rfl, by decide, by rfl⟩

/-- C2 witness environment: transparent decryption succeeds. -/
def c2wEnv : OpenerEnv :=
  { cached := none
    dbsNonempty := true
    transparent := some ⟨"", "key", "''", some (zeroBytes 32)⟩
    keyCandidates := [⟨"key", "'pw'", "k"⟩]
    initCandidates := [⟨"", "default"⟩]
    probe := fun _ _ => false
    wideFlag := false
    fullFlag := false }

/-- Witness for the amended C2: the staging contract at a concrete
environment with a cold cache. -/
theorem getWorkingOpenConfig_staging_witness :
    c2wEnv.cached = none ∧ c2wEnv.dbsNonempty = true ∧ OpenerStagingSpec c2wEnv :=
  ⟨rfl, rfl, getWorkingOpenConfig_staging c2wEnv rfl rfl⟩

/-- Constant hash oracle for the C4 counterexample. -/
def c4Sha : String → String := fun _ => "deadbeef"

/-- C4 counterexample: on macOS with no override set, a failing
keychain read (`execFileSync("security", ...)` throwing) propagates
out of the Key Candidate Generator — it throws instead of returning an
empty list, refuting "never throws" / "returns an empty list if no
source is available". -/
theorem getMacKeyCandidates_throws_counterexample :
    getMacKeyCandidates none
      (.error "security: SecKeychainSearchCopyNext: The specified item could not be found in the keychain.")
      c4Sha =
    .error "security: SecKeychainSearchCopyNext: The specified item could not be found in the keychain." :=
  rfl

/-- C4 amended: the WINDOWS Key Candidate Generator never throws (it
is a total function of its sources) and returns an empty list when no
secret-store source is available; with the `RAYBRIDGE_RAYCAST_DB_KEY`
override set, the macOS generator short-circuits derivation to exactly
the single override candidate (the keychain is never consulted: the
result is the same for every keychain outcome); without an override, a
macOS keychain read failure propagates. -/
theorem keyCandidates_availability :
    (∀ C : WinCodecs,
       getWindowsKeyCandidates C ⟨none, none, fun _ => none⟩ = []) ∧
    (∀ (v : String) (sec : Except String String) (sha : String → String),
       0 < (jsTrim v).length →
       getMacKeyCandidates (some v) sec sha =
         .ok [⟨"key", sqlStringLiteral (jsTrim v), "env:RAYBRIDGE_RAYCAST_DB_KEY"⟩]) ∧
    (∀ (e : String) (sha : String → String),
       getMacKeyCandidates none (.error e) sha = .error e) := by
  refine ⟨fun C => rfl, ?_, fun e sha => rfl⟩
  intro v sec sha hv
  simp [getMacKeyCandidates, hv]

/-- Witness for the amended C4: the Windows generator yields `[]` with
every source absent; the macOS generator returns only the override
candidate even when the keychain read would fail. -/
theorem keyCandidates_availability_witness :
    getWindowsKeyCandidates
      ⟨fun _ => "", fun _ => "", fun _ => "", fun _ => "", fun _ => "", fun _ => none⟩
      ⟨none, none, fun _ => none⟩ = [] ∧
    (0 < (jsTrim "hunter2").length ∧
     getMacKeyCandidates (some "hunter2") (.error "keychain locked") c4Sha =
       .ok [⟨"key", sqlStringLiteral (jsTrim "hunter2"), "env:RAYBRIDGE_RAYCAST_DB_KEY"⟩]) :=
  ⟨keyCandidates_availability.1
     ⟨fun _ => "", fun _ => "", fun _ => "", fun _ => "", fun _ => "", fun _ => none⟩,
   by decide,
   keyCandidates_availability.2.1 "hunter2" (.error "keychain locked") c4Sha (by decide)⟩

/-- The `seen`-set dedup pass yields a sublist of its input, so the
surviving occurrences keep their relative (first-occurrence) order. -/
theorem dedupByAux_sublist [DecidableEq β] (key : α → β) :
    ∀ (seen : List β) (l : List α), (dedupByAux key seen l).Sublist l := by
  intro seen l
  induction l generalizing seen with
  | nil => simp [dedupByAux]
  | cons x xs ih =>
    simp only [dedupByAux]
    by_cases h : key x ∈ seen
    · rw [if_pos h]; exact (ih seen).cons x
    · rw [if_neg h]; exact (ih (key x :: seen)).cons₂ x

/-- The dedup pass yields pairwise-distinct keys, none of which were
already seen. -/
theorem dedupByAux_pairwise [DecidableEq β] (key : α → β) :
    ∀ (seen : List β) (l : List α),
      List.Pairwise (fun a b => key a ≠ key b) (dedupByAux key seen l) ∧
      ∀ c ∈ dedupByAux key seen l, key c ∉ seen := by
  intro seen l
  induction l generalizing seen with
  | nil => simp [dedupByAux]
  | cons x xs ih =>
    by_cases h : key x ∈ seen
    · simp only [dedupByAux, if_pos h]
      exact ih seen
    · simp only [dedupByAux, if_neg h]
      obtain ⟨hp, hs⟩ := ih (key x :: seen)
      refine ⟨List.Pairwise.cons ?_ hp, ?_⟩
      · intro b hb heq
        exact hs b hb (by rw [← heq]; exact List.mem_cons_self _ _)
      · intro c hc
        rcases List.mem_cons.mp hc with rfl | hm
        · exact h
        · exact fun hcs => hs c hm (List.mem_cons_of_mem _ hcs)

/-- The dedup pass preserves key membership (dropping only later
duplicates). -/
theorem dedupByAux_key_mem [DecidableEq β] (key : α → β) :
    ∀ (seen : List β) (l : List α) (b : β),
      (∃ c ∈ l, key c = b) → b ∉ seen →
      ∃ c ∈ dedupByAux key seen l, key c = b := by
  intro seen l
  induction l generalizing seen with
  | nil => intro b hb _; simp at hb
  | cons x xs ih =>
    intro b hb hbs
    by_cases h : key x ∈ seen
    · simp only [dedupByAux, if_pos h]
      obtain ⟨c, hc, hkc⟩ := hb
      rcases List.mem_cons.mp hc with rfl | hm
      · exact absurd (hkc ▸ h) hbs
      · exact ih seen b ⟨c, hm, hkc⟩ hbs
    · simp only [dedupByAux, if_neg h]
      obtain ⟨c, hc, hkc⟩ := hb
      rcases List.mem_cons.mp hc with rfl | hm
      · exact ⟨c, List.mem_cons_self _ _, hkc⟩
      · by_cases hbx : b = key x
        · exact ⟨x, List.mem_cons_self _ _, hbx.symm⟩
        · obtain ⟨d, hd, hkd⟩ :=
            ih (key x :: seen) b ⟨c, hm, hkc⟩
              (by
                intro hmem
                rcases List.mem_cons.mp hmem with he | hmm
                · exact hbx he
                · exact hbs hmm)
          exact ⟨d, List.mem_cons_of_mem _ hd, hkd⟩

/-- C10: deduplication preserves first-occurrence order (the deduped
list is a sublist of its input); the Windows key-candidate list — for
every codec oracle and secret-store environment — contains no two
candidates with the same (pragmaKind, keyExpression) pair, even after
the priority reordering; and the init-candidate lists of both
platforms contain no two candidates with the same statement
sequence. -/
theorem candidate_dedup_properties :
    (∀ l : List KeyCandidate,
       (dedupBy candKey l).Sublist l ∧
       List.Pairwise (fun a b => candKey a ≠ candKey b) (dedupBy candKey l)) ∧
    (∀ (C : WinCodecs) (E : WinEnv),
       List.Pairwise (fun a b => candKey a ≠ candKey b) (getWindowsKeyCandidates C E)) ∧
    List.Pairwise (fun a b => a.initSql ≠ b.initSql) (getInitCandidates true) ∧
    List.Pairwise (fun a b => a.initSql ≠ b.initSql) (getInitCandidates false) := by
  refine ⟨?_, ?_, by decide, by decide⟩
  · intro l
    exact ⟨dedupByAux_sublist candKey [] l, (dedupByAux_pairwise candKey [] l).1⟩
  · intro C E
    have hd := (dedupByAux_pairwise candKey [] (getWindowsKeyCandidatesRaw C E)).1
    have hperm := List.filter_append_perm isPriorityCandidate
      (dedupBy candKey (getWindowsKeyCandidatesRaw C E))
    exact (hperm.pairwise_iff (fun h => h.symm)).mpr hd

/-- Hex digits are already lowercase. -/
theorem lowerChar_hexDigit (n : Nat) (h : n < 16) : lowerChar (hexDigit n) = hexDigit n := by
  interval_cases n <;> decide

/-- Lower-casing a byte's hex pair is the identity. -/
theorem byteToHex_map_lower (b : Nat) : (byteToHex b).map lowerChar = byteToHex b := by
  have h1 : (b % 256) / 16 < 16 := by omega
  have h2 : b % 256 % 16 < 16 := by omega
  simp [byteToHex, lowerChar_hexDigit _ h1, lowerChar_hexDigit _ h2]

/-- `toLowerCase` is the identity on `Buffer.toString("hex")` output. -/
theorem strToLower_bytesToHex (bs : Bytes) : strToLower (bytesToHex bs) = bytesToHex bs := by
  have key : ∀ l : List Nat, ((l.map byteToHex).flatten).map lowerChar =
      (l.map byteToHex).flatten := by
    intro l
    induction l with
    | nil => rfl
    | cons b rest ih => simp [List.map_append, byteToHex_map_lower b, ih]
  simp [strToLower, bytesToHex, key]

/-- Hex encoding doubles the length. -/
theorem bytesToHex_length (bs : Bytes) : (bytesToHex bs).length = 2 * bs.length := by
  have key : ∀ l : List Nat, ((l.map byteToHex).flatten).length = 2 * l.length := by
    intro l
    induction l with
    | nil => rfl
    | cons b rest ih =>
      have hb : (byteToHex b).length = 2 := rfl
      simp only [List.map_cons, List.flatten_cons, List.length_append, hb, ih,
        List.length_cons]
      omega
  simp [bytesToHex, String.length, key]

/-- A (pragma, expression) pair present in the raw Windows candidate
list survives dedup and the priority reordering. -/
theorem getWindowsKeyCandidates_key_mem (C : WinCodecs) (E : WinEnv)
    (pr : String × String)
    (h : ∃ c ∈ getWindowsKeyCandidatesRaw C E, candKey c = pr) :
    ∃ c ∈ getWindowsKeyCandidates C E, candKey c = pr := by
  obtain ⟨c, hc, hk⟩ :=
    dedupByAux_key_mem candKey [] (getWindowsKeyCandidatesRaw C E) pr h (by simp)
  have hperm := List.filter_append_perm isPriorityCandidate
    (dedupBy candKey (getWindowsKeyCandidatesRaw C E))
  exact ⟨c, hperm.mem_iff.mpr hc, hk⟩

/-- The per-credential derivation for a 64-byte blob contains the
first-32-bytes raw-key (blob-literal) candidate. -/
theorem credCandidates_first32_raw (C : WinCodecs) (t : String) (blob : Bytes)
    (h : blob.length = 64) :
    ∃ c ∈ credCandidates C t blob,
      candKey c = ("key", "x'" ++ bytesToHex (blob.take 32) ++ "'") := by
  have h32 : (bytesToHex (blob.take 32)).length = 64 := by
    simp [bytesToHex_length, List.length_take, h]
  have hne : ¬(bytesToHex (blob.take 32) = "") := by
    intro e; rw [e] at h32; simp at h32
  have h32le : 32 ≤ blob.length := by omega
  refine ⟨⟨"key", "x'" ++ bytesToHex (blob.take 32) ++ "'",
    "cred:" ++ t ++ ":bytes:first32" ++ ":key(raw-blob-literal)"⟩, ?_, rfl⟩
  unfold credCandidates
  apply List.mem_append_left
  apply List.mem_append_left
  apply List.mem_append_left
  apply List.mem_append_left
  apply List.mem_append_right
  rw [if_pos h32le]
  unfold addFromHex
  simp only [strToLower_bytesToHex]
  rw [if_neg hne]
  apply List.mem_append_left
  apply List.mem_append_right
  rw [h32, if_pos (by decide)]
  unfold addRawKeyHex
  simp only [strToLower_bytesToHex]
  rw [if_neg hne]
  exact List.mem_cons_self _ _

/-- The per-credential derivation for a 64-byte blob contains the
full-64-bytes hexkey candidate. -/
theorem credCandidates_full_hexkey (C : WinCodecs) (t : String) (blob : Bytes)
    (h : blob.length = 64) :
    ∃ c ∈ credCandidates C t blob,
      candKey c = ("hexkey", sqlStringLiteral (bytesToHex blob)) := by
  have hfull : (bytesToHex blob).length = 128 := by
    simp [bytesToHex_length, h]
  have hne : ¬(bytesToHex blob = "") := by
    intro e; rw [e] at hfull; simp at hfull
  refine ⟨⟨"hexkey", sqlStringLiteral (bytesToHex blob),
    "cred:" ++ t ++ ":bytes" ++ ":hexkey(binary-passphrase)"⟩, ?_, rfl⟩
  unfold credCandidates
  apply List.mem_append_left
  apply List.mem_append_left
  apply List.mem_append_left
  apply List.mem_append_left
  apply List.mem_append_left
  apply List.mem_append_left
  unfold addFromHex
  simp only [strToLower_bytesToHex]
  rw [if_neg hne]
  apply List.mem_append_left
  apply List.mem_append_left
  simp [addHexkeyC, addKeyC, strToLower_bytesToHex]

/-- Secret-store environment for C7: the credential store holds the
64-byte blob; no override, no key file. -/
def c7Env (blob : Bytes) : WinEnv :=
  { envKey := none, lastKey := none, credBlob := fun _ => some blob }

/-- C7 amended: for every 64-byte credential blob (and every codec
oracle), the Windows key-candidate list contains a candidate using the
FIRST 32 bytes as a raw key and a candidate using the full 64 bytes as
a hex-key. (The last-32-bytes raw-key candidate of the original claim
is generated only for the `last_key` file source, not for
credential-store blobs — see the counterexample.) -/
theorem getWindowsKeyCandidates_blob64_slices (C : WinCodecs) (blob : Bytes)
    (h : blob.length = 64) :
    (∃ c ∈ getWindowsKeyCandidates C (c7Env blob),
       c.keyPragma = "key" ∧ c.keyExpr = "x'" ++ bytesToHex (blob.take 32) ++ "'") ∧
    (∃ c ∈ getWindowsKeyCandidates C (c7Env blob),
       c.keyPragma = "hexkey" ∧ c.keyExpr = sqlStringLiteral (bytesToHex blob)) := by
  have hraw : ∀ pr : String × String,
      (∃ c ∈ credCandidates C "Raycast-Production/BackendDBKey" blob, candKey c = pr) →
      ∃ c ∈ getWindowsKeyCandidatesRaw C (c7Env blob), candKey c = pr := by
    intro pr ⟨c, hc, hk⟩
    refine ⟨c, ?_, hk⟩
    simp only [getWindowsKeyCandidatesRaw, c7Env]
    apply List.mem_append_right
    exact List.mem_flatMap.mpr
      ⟨"Raycast-Production/BackendDBKey", by decide, hc⟩
  constructor
  · obtain ⟨c, hc, hk⟩ := getWindowsKeyCandidates_key_mem C (c7Env blob) _
      (hraw _ (credCandidates_first32_raw C "Raycast-Production/BackendDBKey" blob h))
    refine ⟨c, hc, ?_, ?_⟩
    · exact congrArg Prod.fst hk
    · exact congrArg Prod.snd hk
  · obtain ⟨c, hc, hk⟩ := getWindowsKeyCandidates_key_mem C (c7Env blob) _
      (hraw _ (credCandidates_full_hexkey C "Raycast-Production/BackendDBKey" blob h))
    refine ⟨c, hc, ?_, ?_⟩
    · exact congrArg Prod.fst hk
    · exact congrArg Prod.snd hk

/-- Dummy codec oracle for the C7 witness. -/
def c7wCodecs : WinCodecs :=
  { sha256Hex := fun _ => "aa"
    sha256HexBytes := fun _ => "bb"
    decodeUtf8 := fun _ => ""
    decodeUtf16le := fun _ => ""
    encodeBase64 := fun _ => ""
    tryB64Decode := fun _ => none }

/-- Witness for the amended C7 at the concrete blob 0x00,0x01,...,0x3f. -/
theorem getWindowsKeyCandidates_blob64_slices_witness :
    (List.range 64).length = 64 ∧
    ((∃ c ∈ getWindowsKeyCandidates c7wCodecs (c7Env (List.range 64)),
        c.keyPragma = "key" ∧
        c.keyExpr = "x'" ++ bytesToHex ((List.range 64).take 32) ++ "'") ∧
     (∃ c ∈ getWindowsKeyCandidates c7wCodecs (c7Env (List.range 64)),
        c.keyPragma = "hexkey" ∧
        c.keyExpr = sqlStringLiteral (bytesToHex (List.range 64)))) :=
  ⟨by simp,
   getWindowsKeyCandidates_blob64_slices c7wCodecs (List.range 64) (by simp)⟩

/-- Codec oracle for the C7 counterexample: the blob decodes to a
non-printable string (so the UTF-8/UTF-16 passphrase branches are
skipped, as they are for the real bytes 0x00..0x3f), and base64
encoding is non-empty. -/
def c7cCodecs : WinCodecs :=
  { sha256Hex := fun _ => "aaaa"
    sha256HexBytes := fun _ => "bbbb"
    decodeUtf8 := fun _ => String.mk [Char.ofNat 1]
    decodeUtf16le := fun _ => String.mk [Char.ofNat 1]
    encodeBase64 := fun _ => "QUJD"
    tryB64Decode := fun _ => none }

/-- Secret-store environment for the C7 counterexample: one
credential-manager entry holding the 64-byte blob 0x00..0x3f; no
override; no `last_key` file. -/
def c7cEnv : WinEnv :=
  { envKey := none
    lastKey := none
    credBlob := fun t =>
      if t = "Raycast-Production/BackendDBKey" then some (List.range 64) else none }

/-- The hex spelling of the blob's last 32 bytes. -/
def last32Hex : String := bytesToHex (((List.range 64).drop 32).take 32)

/-- C7 counterexample: for a 64-byte credential-store blob the
candidate list DOES contain the first-32-bytes raw-key candidate, but
contains NO candidate using the last 32 bytes as a raw key (in any of
the raw spellings `x'..'`, `"x'..'"`, `'raw:..'`) nor as a bare
hexkey — the last-32 slice is derived only from the `last_key` file
(src/auth.ts lines 391-396), not from credential blobs
(lines 428-439). -/
theorem getWindowsKeyCandidates_no_last32_counterexample :
    (getWindowsKeyCandidates c7cCodecs c7cEnv).any
      (fun c => c.keyPragma == "key" &&
        c.keyExpr == "x'" ++ bytesToHex ((List.range 64).take 32) ++ "'") = true ∧
    (getWindowsKeyCandidates c7cCodecs c7cEnv).all
      (fun c =>
        !(c.keyExpr == "x'" ++ last32Hex ++ "'") &&
        !(c.keyExpr == "\"x'" ++ last32Hex ++ "'\"") &&
        !(c.keyExpr == sqlStringLiteral ("raw:" ++ last32Hex)) &&
        !(c.keyPragma == "hexkey" && c.keyExpr == sqlStringLiteral last32Hex)) = true := by
  set_option maxRecDepth 10000 in
  constructor <;> decide

end RayBridge
